import Mathlib

/-!
The OTLP request builder of `aws/logs/send-logs`.

A shallow embedding of `otlp_request_builder.go`: the builder is a record that is
threaded through every operation, the `pdata` attribute map is an association list with
the insert-or-update / lookup / remove contract of `pcommon.Map`, and the two package
level regular expressions are terms of a small regular-expression syntax run by a
backtracking matcher (leftmost match, first alternative first, greedy repetition), which
is the match Go's `regexp` package reports.
-/

namespace SendLogs

/-! ## Values and attribute maps (`pcommon.Value`, `pcommon.Map`) -/

/-- Attribute value of the `pdata` library, with the kinds this package writes: the
empty value of a fresh record body, strings (`PutStr`, `SetStr`) and integers (`PutInt`). -/
inductive Value where
  | empty : Value
  | str (s : String) : Value
  | int (i : Int) : Value
  deriving DecidableEq, Repr

/-- Accessor `Value.Str()`: the string held by the value, the empty string for a value
that is not a string. -/
def Value.Str : Value → String
  | .str s => s
  | _ => ""

/-- Attribute map `pcommon.Map`: key/value pairs in insertion order. -/
abbrev Map := List (String × Value)

/-- Lookup `Map.Get`: the value of the first pair with the key; `none` stands for the
result `(_, false)`. -/
def Map.Get : Map → String → Option Value
  | [], _ => none
  | (k, v) :: rest, key => if k = key then some v else Map.Get rest key

/-- Insert-or-update shared by `PutStr` and `PutInt`: an existing key has its value
replaced in place, a new key is appended. -/
def Map.put : Map → String → Value → Map
  | [], key, v => [(key, v)]
  | (k, w) :: rest, key, v =>
    if k = key then (k, v) :: rest else (k, w) :: Map.put rest key v

/-- Library call `Map.PutStr`. -/
def Map.PutStr (m : Map) (key : String) (v : String) : Map := Map.put m key (.str v)

/-- Library call `Map.PutInt`. -/
def Map.PutInt (m : Map) (key : String) (v : Int) : Map := Map.put m key (.int v)

/-- Library call `Map.Remove`: afterwards the key is absent, every other key is kept. -/
def Map.Remove (m : Map) (key : String) : Map := m.filter (fun kv => !decide (kv.1 = key))

/-! ## Attribute names (`semconv` v1.5.0) -/

def AttributeHostID : String := "host.id"
def AttributeCloudPlatform : String := "cloud.platform"
def AttributeCloudPlatformAWSEC2 : String := "aws_ec2"
def AttributeCloudProvider : String := "cloud.provider"
def AttributeCloudProviderAWS : String := "aws"
def AttributeCloudAccountID : String := "cloud.account.id"
def AttributeCloudRegion : String := "cloud.region"
def AttributeAWSLogGroupNames : String := "aws.log.group.names"
def AttributeAWSLogStreamNames : String := "aws.log.stream.names"
def AttributeK8SContainerName : String := "k8s.container.name"
def AttributeK8SPodUID : String := "k8s.pod.uid"
def AttributeK8SPodName : String := "k8s.pod.name"
def AttributeK8SNamespaceName : String := "k8s.namespace.name"
def AttributeK8SNodeName : String := "k8s.node.name"
def AttributeContainerID : String := "container.id"
def SchemaURL : String := "https://opentelemetry.io/schemas/1.5.0"

/-! ## Regular expressions (`regexp`) -/

/-- Syntax of the regular expressions used by this package: a character class, a
sequence, an ordered alternative, a greedy one-or-more repetition of a character class,
and a numbered capture group. -/
inductive Regex where
  | cls (p : Char → Bool) : Regex
  | seq (a b : Regex) : Regex
  | alt (a b : Regex) : Regex
  | plus (p : Char → Bool) : Regex
  | group (i : Nat) (r : Regex) : Regex

/-- The class holding the single character `c`. -/
def Regex.chr (c : Char) : Regex := .cls (fun x => x == c)

/-- Class `\w` of Go's `regexp`: the ASCII word characters `[0-9A-Za-z_]`. -/
def isWord (c : Char) : Bool :=
  (48 ≤ c.toNat && c.toNat ≤ 57) || (65 ≤ c.toNat && c.toNat ≤ 90) ||
    (97 ≤ c.toNat && c.toNat ≤ 122) || c.toNat == 95

/-- Class `\d` of Go's `regexp`: the ASCII digits `[0-9]`. -/
def isDigit (c : Char) : Bool := 48 ≤ c.toNat && c.toNat ≤ 57

/-- Class `[\w\-]`. -/
def isWordOrHyphen (c : Char) : Bool := isWord c || c.toNat == 45

/-- Captured texts, indexed by group number. -/
abbrev Captures := List (Nat × List Char)

/-- Record the text of group `i`, replacing an earlier capture of the same group. -/
def setCapture (caps : Captures) (i : Nat) (text : List Char) : Captures :=
  (i, text) :: caps.filter (fun c => !decide (c.1 = i))

/-- Greedy one-or-more repetition of a class in front of the continuation `k`: the
longest run is tried first and given back one character at a time while `k` fails. -/
def plusK {R : Type} (p : Char → Bool) : List Char → (List Char → Option R) → Option R
  | [], _ => none
  | c :: cs, k =>
    if p c then
      match plusK p cs k with
      | some r => some r
      | none => k cs
    else none

/-- Backtracking matcher: match `r` at the head of the input and hand the rest of the
input and the captures to the continuation; the first success in priority order wins. -/
def Regex.matchK {R : Type} :
    Regex → List Char → Captures → (List Char → Captures → Option R) → Option R
  | .cls _, [], _, _ => none
  | .cls p, c :: cs, caps, k => if p c then k cs caps else none
  | .seq a b, s, caps, k => a.matchK s caps (fun s1 caps1 => b.matchK s1 caps1 k)
  | .alt a b, s, caps, k =>
    match a.matchK s caps k with
    | some r => some r
    | none => b.matchK s caps k
  | .plus p, s, caps, k => plusK p s (fun s1 => k s1 caps)
  | .group i r, s, caps, k =>
    r.matchK s caps
      (fun s1 caps1 => k s1 (setCapture caps1 i (s.take (s.length - s1.length))))

/-- Match of `r` starting exactly at the head of `s`: the matched text and the captures. -/
def Regex.matchHere (r : Regex) (s : List Char) : Option (List Char × Captures) :=
  r.matchK s [] (fun rest caps => some (s.take (s.length - rest.length), caps))

/-- Leftmost match of `r` anywhere in `s`: start positions are tried from left to right. -/
def Regex.search (r : Regex) : List Char → Option (List Char × Captures)
  | [] => r.matchHere []
  | c :: cs =>
    match r.matchHere (c :: cs) with
    | some m => some m
    | none => Regex.search r cs

/-- Compiled expression `*regexp.Regexp`: the pattern, whether it starts with `^`, and
the names of its capture groups (group `i` is entry `i`, entry 0 is the whole match). -/
structure Regexp where
  re : Regex
  anchored : Bool
  subexpNames : List String

/-- Text of group `i` in a successful match (the empty string for a group that did not
take part in the match). -/
def captureText (caps : Captures) (i : Nat) : String :=
  match caps.find? (fun c => c.1 == i) with
  | some c => String.mk c.2
  | none => ""

/-- Library call `FindStringSubmatch`: the empty list (`nil`) when there is no match,
otherwise the text of the leftmost match followed by the text of each group. -/
def Regexp.FindStringSubmatch (re : Regexp) (s : String) : List String :=
  match (if re.anchored then re.re.matchHere s.toList else re.re.search s.toList) with
  | none => []
  | some (whole, caps) =>
    String.mk whole :: (List.range (re.subexpNames.length - 1)).map
      (fun i => captureText caps (i + 1))

/-- Library call `SubexpIndex`: the index of the first group with the name, `-1` when
no group has it. -/
def Regexp.SubexpIndex (re : Regexp) (name : String) : Int :=
  if name = "" then -1
  else
    match re.subexpNames.indexOf? name with
    | some i => (i : Nat)
    | none => -1

/-- Pattern `^(?P<HostId>(i-|ip-)[\w\-]+)`. -/
def detectHostIdRegExp : Regexp where
  re := .group 1 (.seq
    (.group 2 (.alt (.seq (.chr 'i') (.chr '-')) (.seq (.chr 'i') (.seq (.chr 'p') (.chr '-')))))
    (.plus isWordOrHyphen))
  anchored := true
  subexpNames := ["", "HostId", ""]

/-- Pattern `(?P<Region>\w{2}-\w+-\d+)`. -/
def detectRegionRegExp : Regexp where
  re := .group 1 (.seq (.seq (.cls isWord) (.cls isWord)) (.seq (.chr '-')
    (.seq (.plus isWord) (.seq (.chr '-') (.plus isDigit)))))
  anchored := false
  subexpNames := ["", "Region"]

/-! ## Dynamic values and Go maps -/

/-- Dynamic value held by an `interface{}`: a `string`, an `int`, a `bool`, or a value
of any other dynamic type (named by `typeName`). -/
inductive GoValue where
  | string (s : String) : GoValue
  | int (i : Int) : GoValue
  | bool (b : Bool) : GoValue
  | other (typeName : String) : GoValue
  deriving DecidableEq, Repr

/-- Go map with string keys: every key occurs once. A `range` loop visits the entries in
an unspecified order; `entries` lists them in the order of the visit. -/
structure GoMap (α : Type) where
  entries : List (String × α)
  nodup : (entries.map Prod.fst).Nodup

/-- Index expression `m[key]` with the comma-ok result as an option. -/
def GoMap.lookup {α : Type} (m : GoMap α) (key : String) : Option α :=
  (m.entries.find? (fun kv => kv.1 == key)).map Prod.snd

/-! ## The document (`plog`) -/

/-- Record `plog.LogRecord`. -/
structure LogRecord where
  eventName : String
  timestamp : Nat
  body : Value
  attributes : Map
  deriving DecidableEq, Repr

/-- Scope `plog.ScopeLogs`. -/
structure ScopeLogs where
  logRecords : List LogRecord
  deriving DecidableEq, Repr

/-- Resource level `plog.ResourceLogs`: schema URL, the attributes of the resource and
the scopes. -/
structure ResourceLogs where
  schemaUrl : String
  attributes : Map
  scopeLogs : List ScopeLogs
  deriving DecidableEq, Repr

/-- Document `plog.Logs`. -/
structure Logs where
  resourceLogs : List ResourceLogs
  deriving DecidableEq, Repr

/-- Result of `AppendEmpty` on a record slice. -/
def LogRecord.new : LogRecord :=
  { eventName := "", timestamp := 0, body := .empty, attributes := [] }

/-- Conversion `pcommon.Timestamp(timestamp)` from `int64` to `uint64`. -/
def Timestamp (timestamp : Int) : Nat := (timestamp % 2 ^ 64).toNat

/-! ## The builder -/

/-- Builder state. The Go struct holds handles into one shared document: `logs` is the
document made of the single `resLogs`, `instrLogsSlice` is the scope slice of `resLogs`
and `instrLogs` refers to one scope of that slice (`none` is the zero handle, `some i`
the scope at position `i`). -/
structure otlpRequestBuilder where
  resLogs : ResourceLogs
  instrLogs : Option Nat
  hostId : String
  parsedRegion : String
  parsedHostId : String
  deriving DecidableEq, Repr

namespace otlpRequestBuilder

/-- Field `logs`: the document that shares `resLogs`. -/
def logs (rb : otlpRequestBuilder) : Logs := { resourceLogs := [rb.resLogs] }

/-- Field `instrLogsSlice`: the scope slice of `resLogs`. -/
def instrLogsSlice (rb : otlpRequestBuilder) : List ScopeLogs := rb.resLogs.scopeLogs

/-- Handle `rb.resLogs.Resource().Attributes()`. -/
def attrs (rb : otlpRequestBuilder) : Map := rb.resLogs.attributes

/-- Write the resource attributes back through the handle. -/
def withAttrs (rb : otlpRequestBuilder) (m : Map) : otlpRequestBuilder :=
  { rb with resLogs := { rb.resLogs with attributes := m } }

/-- All records of the document, scope by scope, in order. -/
def entries (rb : otlpRequestBuilder) : List LogRecord :=
  (rb.resLogs.scopeLogs.map ScopeLogs.logRecords).flatten

end otlpRequestBuilder

def NewOtlpRequestBuilder : otlpRequestBuilder :=
  { resLogs := { schemaUrl := SchemaURL, attributes := [], scopeLogs := [] }
    instrLogs := none
    hostId := ""
    parsedRegion := ""
    parsedHostId := "" }

def SetHostId (rb : otlpRequestBuilder) (hostId : String) : otlpRequestBuilder :=
  let rb := { rb with hostId := hostId }
  if rb.hostId ≠ "" then
    rb.withAttrs
      ((rb.attrs.PutStr AttributeHostID rb.hostId).PutStr
        AttributeCloudPlatform AttributeCloudPlatformAWSEC2)
  else
    rb.withAttrs ((rb.attrs.Remove AttributeHostID).Remove AttributeCloudPlatform)

def SetCloudAccount (rb : otlpRequestBuilder) (account : String) : otlpRequestBuilder :=
  rb.withAttrs (rb.attrs.PutStr AttributeCloudAccountID account)

def SetLogGroup (rb : otlpRequestBuilder) (logGroup : String) : otlpRequestBuilder :=
  rb.withAttrs (rb.attrs.PutStr AttributeAWSLogGroupNames logGroup)

def MatchContainerName (rb : otlpRequestBuilder)
    (clusterUid namespaceName podName containerName : String) : Bool :=
  match rb.attrs.Get AttributeK8SContainerName, rb.attrs.Get AttributeK8SPodUID,
    rb.attrs.Get AttributeK8SNamespaceName, rb.attrs.Get "sw.k8s.cluster.uid" with
  | some attrsContainerName, some attrsPodName, some attrsNamespaceName, some attrsClusterUid =>
    attrsContainerName.Str == containerName &&
      attrsPodName.Str == podName &&
      attrsNamespaceName.Str == namespaceName &&
      attrsClusterUid.Str == clusterUid
  | _, _, _, _ => false

def HasContainerName (rb : otlpRequestBuilder) : Bool :=
  let containerNameExists := (rb.attrs.Get AttributeK8SContainerName).isSome
  let podUidExists := (rb.attrs.Get AttributeK8SPodUID).isSome
  let namespaceNameExists := (rb.attrs.Get AttributeK8SNamespaceName).isSome
  let clusterUidExists := (rb.attrs.Get "sw.k8s.cluster.uid").isSome
  if podUidExists && namespaceNameExists && clusterUidExists && containerNameExists then
    true
  else
    false

def SetKubernetesPodName (rb : otlpRequestBuilder) (podName : String) : otlpRequestBuilder :=
  rb.withAttrs (rb.attrs.PutStr AttributeK8SPodName podName)

def SetKubernetesNamespaceName (rb : otlpRequestBuilder) (namespaceName : String) :
    otlpRequestBuilder :=
  rb.withAttrs (rb.attrs.PutStr AttributeK8SNamespaceName namespaceName)

def SetKubernetesClusterUid (rb : otlpRequestBuilder) (clusterUid : String) :
    otlpRequestBuilder :=
  rb.withAttrs (rb.attrs.PutStr "sw.k8s.cluster.uid" clusterUid)

def SetKubernetesContainerName (rb : otlpRequestBuilder) (containerName : String) :
    otlpRequestBuilder :=
  rb.withAttrs (rb.attrs.PutStr AttributeK8SContainerName containerName)

def SetKubernetesContainerImage (rb : otlpRequestBuilder) (containerImage : String) :
    otlpRequestBuilder :=
  rb.withAttrs (rb.attrs.PutStr "k8s.container.image.name" containerImage)

def SetKubernetesPodUID (rb : otlpRequestBuilder) (podUID : String) : otlpRequestBuilder :=
  rb.withAttrs (rb.attrs.PutStr AttributeK8SPodUID podUID)

def SetKubernetesContainerId (rb : otlpRequestBuilder) (containerId : String) :
    otlpRequestBuilder :=
  rb.withAttrs (rb.attrs.PutStr AttributeContainerID containerId)

def SetKubernetesNodeName (rb : otlpRequestBuilder) (nodeName : String) : otlpRequestBuilder :=
  rb.withAttrs (rb.attrs.PutStr AttributeK8SNodeName nodeName)

def SetKubernetesPodLabels (rb : otlpRequestBuilder) (podLabels : GoMap String) :
    otlpRequestBuilder :=
  rb.withAttrs
    (podLabels.entries.foldl (fun attrs kv => attrs.PutStr ("k8s.pod.labels." ++ kv.1) kv.2)
      rb.attrs)

def SetKubernetesPodAnnotations (rb : otlpRequestBuilder) (podAnnotations : GoMap String) :
    otlpRequestBuilder :=
  rb.withAttrs
    (podAnnotations.entries.foldl
      (fun attrs kv => attrs.PutStr ("k8s.pod.annotations." ++ kv.1) kv.2) rb.attrs)

def SetKubernetesManifestVersion (rb : otlpRequestBuilder)
    (manifestVersion defaultVersion : String) : otlpRequestBuilder :=
  let versionToSet := if manifestVersion = "" then defaultVersion else manifestVersion
  rb.withAttrs (rb.attrs.PutStr "sw.k8s.agent.manifest.version" versionToSet)

def SetOtelAttributes (rb : otlpRequestBuilder) (podName containerName : String) :
    otlpRequestBuilder :=
  rb.withAttrs ((rb.attrs.PutStr "host.name" podName).PutStr "service.name" containerName)

def MatchHostId (rb : otlpRequestBuilder) (hostId : String) : Bool :=
  rb.hostId == hostId

def HasHostId (rb : otlpRequestBuilder) : Bool :=
  rb.hostId != ""

/-- Element `matches[matchIndex]` guarded by `matchIndex >= 0 && matchIndex < len(matches)`:
`none` when the guard fails. -/
def submatchAt (found : List String) (matchIndex : Int) : Option String :=
  if 0 ≤ matchIndex ∧ matchIndex < found.length then found.get? matchIndex.toNat else none

def SetLogStream (rb : otlpRequestBuilder) (logStream : String) : otlpRequestBuilder :=
  let rb := rb.withAttrs (rb.attrs.PutStr AttributeAWSLogStreamNames logStream)
  let rb :=
    match submatchAt (detectHostIdRegExp.FindStringSubmatch logStream)
      (detectHostIdRegExp.SubexpIndex "HostId") with
    | some m => { rb with parsedHostId := m }
    | none => rb
  let rb :=
    match submatchAt (detectRegionRegExp.FindStringSubmatch logStream)
      (detectRegionRegExp.SubexpIndex "Region") with
    | some m => { rb with parsedRegion := m }
    | none => rb
  if rb.parsedHostId ≠ "" ∧ ¬ HasHostId rb then SetHostId rb logStream else rb

/-- The attribute value the type switch of `AddLogEntry` writes for a dynamic value:
`none` for a value the switch skips. -/
def GoValue.written : GoValue → Option Value
  | .string v => some (.str v)
  | .int v => some (.int v)
  | _ => none

/-- One step of the attribute loop of `AddLogEntry`: the type switch keeps `string` and
`int` values and skips every other dynamic type. -/
def putAttribute (m : Map) (kv : String × GoValue) : Map :=
  match kv.2 with
  | .string v => m.PutStr kv.1 v
  | .int v => m.PutInt kv.1 v
  | _ => m

/-- The attribute loops of `AddLogEntry`: the maps in argument order, each map entry by
entry. A `nil` argument list is the empty list. -/
def putAttributes (m : Map) (attributes : List (GoMap GoValue)) : Map :=
  attributes.foldl (fun acc attrs => attrs.entries.foldl putAttribute acc) m

/-- The writes `AddLogEntry` makes to the record it has just appended. -/
def fillLogEntry (rb : otlpRequestBuilder) (logEntry : LogRecord) (itemId : String)
    (timestamp : Int) (message region : String) (attributes : List (GoMap GoValue)) :
    LogRecord :=
  let logEntry := { logEntry with eventName := itemId }
  let logEntry := { logEntry with timestamp := Timestamp timestamp }
  let logEntry := { logEntry with body := .str message }
  let logEntry :=
    if region ≠ "" then
      { logEntry with attributes := logEntry.attributes.PutStr AttributeCloudRegion region }
    else if rb.parsedRegion ≠ "" then
      { logEntry with
        attributes := logEntry.attributes.PutStr AttributeCloudRegion rb.parsedRegion }
    else logEntry
  { logEntry with attributes := putAttributes logEntry.attributes attributes }

/-- Append a log entry. The result is `none` where the Go code dereferences the zero
`instrLogs` handle (the slice is not empty but the handle was never set). -/
def AddLogEntry (rb : otlpRequestBuilder) (itemId : String) (timestamp : Int)
    (message region : String) (attributes : List (GoMap GoValue)) :
    Option otlpRequestBuilder :=
  let rb :=
    if rb.instrLogsSlice.length = 0 then
      { rb with
        resLogs := { rb.resLogs with scopeLogs := rb.resLogs.scopeLogs ++ [{ logRecords := [] }] }
        instrLogs := some rb.resLogs.scopeLogs.length }
    else rb
  match rb.instrLogs with
  | none => none
  | some i =>
    match rb.resLogs.scopeLogs.get? i with
    | none => none
    | some scope =>
      let logEntry := fillLogEntry rb LogRecord.new itemId timestamp message region attributes
      some { rb with
        resLogs := { rb.resLogs with
          scopeLogs := rb.resLogs.scopeLogs.set i
            { logRecords := scope.logRecords ++ [logEntry] } } }

/-- Materialise the document: the returned handle shares the document of the builder, so
the result is the builder after the stamp together with its document. -/
def GetLogs (rb : otlpRequestBuilder) : otlpRequestBuilder × Logs :=
  let rb := rb.withAttrs (rb.attrs.PutStr AttributeCloudProvider AttributeCloudProviderAWS)
  (rb, rb.logs)

/-- The value `SetLogStream` assigns to `parsedHostId` for the stream `logStream`; `none`
when the guard on the match fails and no assignment takes place. -/
def parsedHostIdOf (logStream : String) : Option String :=
  submatchAt (detectHostIdRegExp.FindStringSubmatch logStream)
    (detectHostIdRegExp.SubexpIndex "HostId")

/-- The value `SetLogStream` assigns to `parsedRegion` for the stream `logStream`; `none`
when the guard on the match fails and no assignment takes place. -/
def parsedRegionOf (logStream : String) : Option String :=
  submatchAt (detectRegionRegExp.FindStringSubmatch logStream)
    (detectRegionRegExp.SubexpIndex "Region")

/-- Example attribute map `map[string]interface{}{"cloud.region": "eu-west-1"}`. -/
def regionOverrideMap : GoMap GoValue :=
  { entries := [("cloud.region", .string "eu-west-1")], nodup := by decide }

/-- Example attribute map `map[string]interface{}{"k": "v", "n": 5, "b": true}`. -/
def exampleAttributes : GoMap GoValue :=
  { entries := [("k", .string "v"), ("n", .int 5), ("b", .bool true)], nodup := by decide }

/-- Invariant of the struct: the scope slice is empty, or it holds exactly one scope and
`instrLogs` refers to it. -/
def Inv (rb : otlpRequestBuilder) : Prop :=
  rb.instrLogsSlice = [] ∨ (rb.instrLogsSlice.length = 1 ∧ rb.instrLogs = some 0)

instance (rb : otlpRequestBuilder) : Decidable (Inv rb) := by
  unfold Inv; infer_instance

/-! ## Frames, operation sequences and token shapes -/

/-- Frame of an operation, in the words of the specification: apart from the resource
keys listed in `keys`, the builder `rb1` agrees with `rb` on every resource attribute
(presence and value), on the scopes with all their log entries, the schema URL, the scope
handle, the host id and the parsed host id and region. -/
def FrameExcept (rb rb1 : otlpRequestBuilder) (keys : List String) : Prop :=
  (∀ k, k ∉ keys → rb1.attrs.Get k = rb.attrs.Get k) ∧
  rb1.resLogs.scopeLogs = rb.resLogs.scopeLogs ∧
  rb1.resLogs.schemaUrl = rb.resLogs.schemaUrl ∧
  rb1.instrLogs = rb.instrLogs ∧
  rb1.hostId = rb.hostId ∧
  rb1.parsedRegion = rb.parsedRegion ∧
  rb1.parsedHostId = rb.parsedHostId

/-- The four setters of the container identity. -/
inductive IdentitySetter where
  | clusterUid : IdentitySetter
  | namespaceName : IdentitySetter
  | podUID : IdentitySetter
  | containerName : IdentitySetter
  deriving DecidableEq, Repr

/-- The resource key an identity setter writes. -/
def IdentitySetter.key : IdentitySetter → String
  | .clusterUid => "sw.k8s.cluster.uid"
  | .namespaceName => AttributeK8SNamespaceName
  | .podUID => AttributeK8SPodUID
  | .containerName => AttributeK8SContainerName

/-- Call of an identity setter with the argument `v`. -/
def IdentitySetter.call : IdentitySetter → otlpRequestBuilder → String → otlpRequestBuilder
  | .clusterUid, rb, v => SetKubernetesClusterUid rb v
  | .namespaceName, rb, v => SetKubernetesNamespaceName rb v
  | .podUID, rb, v => SetKubernetesPodUID rb v
  | .containerName, rb, v => SetKubernetesContainerName rb v

/-- A sequence of identity-setter calls, first call first. -/
def callIdentitySetters (rb : otlpRequestBuilder) (calls : List (IdentitySetter × String)) :
    otlpRequestBuilder :=
  calls.foldl (fun acc c => c.1.call acc c.2) rb

/-- One call of the interface `OtlpRequestBuilder` with its arguments. -/
inductive Op where
  | setHostId (hostId : String) : Op
  | setCloudAccount (account : String) : Op
  | setLogGroup (logGroup : String) : Op
  | setLogStream (logStream : String) : Op
  | addLogEntry (entryId : String) (timestamp : Int) (message region : String)
      (attributes : List (GoMap GoValue)) : Op
  | matchHostId (hostId : String) : Op
  | hasHostId : Op
  | getLogs : Op
  | hasContainerName : Op
  | matchContainerName (clusterUid namespaceName podName containerName : String) : Op
  | setKubernetesPodName (podName : String) : Op
  | setKubernetesNamespaceName (namespaceName : String) : Op
  | setKubernetesClusterUid (clusterUid : String) : Op
  | setKubernetesContainerName (containerName : String) : Op
  | setKubernetesContainerImage (containerImage : String) : Op
  | setKubernetesPodUID (podUID : String) : Op
  | setKubernetesContainerId (containerId : String) : Op
  | setKubernetesNodeName (nodeName : String) : Op
  | setKubernetesPodLabels (podLabels : GoMap String) : Op
  | setKubernetesPodAnnotations (podAnnotations : GoMap String) : Op
  | setKubernetesManifestVersion (manifestVersion defaultVersion : String) : Op
  | setOtelAttributes (podName containerName : String) : Op

/-- The builder after one call of the interface; the predicates leave it as it is, and
`none` is the failure of `AddLogEntry`. -/
def Op.run : Op → otlpRequestBuilder → Option otlpRequestBuilder
  | .setHostId h, rb => some (SetHostId rb h)
  | .setCloudAccount a, rb => some (SetCloudAccount rb a)
  | .setLogGroup g, rb => some (SetLogGroup rb g)
  | .setLogStream s, rb => some (SetLogStream rb s)
  | .addLogEntry i t m r a, rb => AddLogEntry rb i t m r a
  | .matchHostId _, rb => some rb
  | .hasHostId, rb => some rb
  | .getLogs, rb => some (GetLogs rb).1
  | .hasContainerName, rb => some rb
  | .matchContainerName _ _ _ _, rb => some rb
  | .setKubernetesPodName v, rb => some (SetKubernetesPodName rb v)
  | .setKubernetesNamespaceName v, rb => some (SetKubernetesNamespaceName rb v)
  | .setKubernetesClusterUid v, rb => some (SetKubernetesClusterUid rb v)
  | .setKubernetesContainerName v, rb => some (SetKubernetesContainerName rb v)
  | .setKubernetesContainerImage v, rb => some (SetKubernetesContainerImage rb v)
  | .setKubernetesPodUID v, rb => some (SetKubernetesPodUID rb v)
  | .setKubernetesContainerId v, rb => some (SetKubernetesContainerId rb v)
  | .setKubernetesNodeName v, rb => some (SetKubernetesNodeName rb v)
  | .setKubernetesPodLabels l, rb => some (SetKubernetesPodLabels rb l)
  | .setKubernetesPodAnnotations l, rb => some (SetKubernetesPodAnnotations rb l)
  | .setKubernetesManifestVersion v d, rb => some (SetKubernetesManifestVersion rb v d)
  | .setOtelAttributes p c, rb => some (SetOtelAttributes rb p c)

/-- The builder states reachable from `NewOtlpRequestBuilder` by calls of the interface. -/
inductive Reachable : otlpRequestBuilder → Prop where
  | init : Reachable NewOtlpRequestBuilder
  | step {rb rb1 : otlpRequestBuilder} (op : Op) (before : Reachable rb)
      (next : op.run rb = some rb1) : Reachable rb1

/-- ASCII letters `[A-Za-z]`. -/
def isLetter (c : Char) : Bool :=
  (65 ≤ c.toNat && c.toNat ≤ 90) || (97 ≤ c.toNat && c.toNat ≤ 122)

/-- Shape of a token, in the words of the specification: two characters of the class
`two`, a hyphen, one or more word characters, a hyphen, one or more digits. -/
def TokenShape (two : Char → Bool) (tok : List Char) : Prop :=
  ∃ a b w d, tok = a :: b :: '-' :: (w ++ '-' :: d) ∧ two a = true ∧ two b = true ∧
    w ≠ [] ∧ (∀ c ∈ w, isWord c = true) ∧ d ≠ [] ∧ (∀ c ∈ d, isDigit c = true)

/-- Shape of a region token with word characters in the first two places. -/
def RegionShape (tok : List Char) : Prop := TokenShape isWord tok

/-- The region token at the head of the input, in the words of the specification: two
word characters, a hyphen, the run of word characters up to the next hyphen, that hyphen,
and the longest run of digits after it. -/
def regionTokenAt (s : List Char) : Option (List Char) :=
  match s with
  | a :: b :: c :: rest =>
    if isWord a = true ∧ isWord b = true ∧ c = '-' ∧ rest.takeWhile isWord ≠ [] then
      match rest.dropWhile isWord with
      | h :: rest2 =>
        if h = '-' ∧ rest2.takeWhile isDigit ≠ [] then
          some (a :: b :: c :: (rest.takeWhile isWord ++ h :: rest2.takeWhile isDigit))
        else none
      | [] => none
    else none
  | _ => none

/-- The leftmost region token of the input: start positions from left to right. -/
def firstRegionToken : List Char → Option (List Char)
  | [] => none
  | c :: cs =>
    match regionTokenAt (c :: cs) with
    | some t => some t
    | none => firstRegionToken cs

/-- The resource keys of the host id, the cloud attributes and the container identity. -/
def reservedKeys : List String :=
  [AttributeHostID, AttributeCloudPlatform, AttributeCloudProvider, AttributeCloudAccountID,
    "sw.k8s.cluster.uid", AttributeK8SNamespaceName, AttributeK8SPodUID,
    AttributeK8SContainerName]

/-- Example label map `map[string]string{"app": "web", "host.id": "x"}`. -/
def exampleLabels : GoMap String :=
  { entries := [("app", "web"), ("host.id", "x")], nodup := by decide }

/-- The host-id and cloud-platform attributes follow the host id field: both absent while
the field is empty, otherwise the host-id attribute holds the field and the cloud-platform
attribute holds the AWS EC2 value. -/
def HostPair (rb : otlpRequestBuilder) : Prop :=
  rb.attrs.Get AttributeHostID = (if rb.hostId = "" then none else some (.str rb.hostId)) ∧
  rb.attrs.Get AttributeCloudPlatform =
    (if rb.hostId = "" then none else some (.str AttributeCloudPlatformAWSEC2))

/-- The host-id token in the words of the specification: the input starts with "i-" or
"ip-" immediately followed by at least one character of `[0-9A-Za-z_-]`, and the token is
that marker followed by the longest run of such characters. -/
def hostIdToken (s : List Char) : Option (List Char) :=
  match s with
  | c1 :: c2 :: rest =>
    if c1 = 'i' ∧ c2 = '-' then
      if rest.takeWhile isWordOrHyphen = [] then none
      else some (c1 :: c2 :: rest.takeWhile isWordOrHyphen)
    else if c1 = 'i' ∧ c2 = 'p' then
      match rest with
      | c3 :: rest3 =>
        if c3 = '-' then
          if rest3.takeWhile isWordOrHyphen = [] then none
          else some (c1 :: c2 :: c3 :: rest3.takeWhile isWordOrHyphen)
        else none
      | [] => none
    else none
  | _ => none

/-! ## Attribute map laws -/

theorem Map.Get_put_same (m : Map) (key : String) (v : Value) :
    Map.Get (Map.put m key v) key = some v := by
  induction m with
  | nil => simp [Map.put, Map.Get]
  | cons kv rest ih =>
    obtain ⟨k, w⟩ := kv
    by_cases h : k = key
    · simp [Map.put, Map.Get, h]
    · simp [Map.put, Map.Get, h, ih]

theorem Map.Get_put_other (m : Map) (key other : String) (v : Value) (h : other ≠ key) :
    Map.Get (Map.put m key v) other = Map.Get m other := by
  induction m with
  | nil => simp [Map.put, Map.Get, Ne.symm h]
  | cons kv rest ih =>
    obtain ⟨k, w⟩ := kv
    by_cases hk : k = key
    · subst hk
      simp [Map.put, Map.Get, Ne.symm h]
    · by_cases ho : k = other
      · subst ho
        simp [Map.put, Map.Get, hk]
      · simp [Map.put, Map.Get, hk, ho, ih]

theorem Map.Get_Remove_same (m : Map) (key : String) :
    Map.Get (Map.Remove m key) key = none := by
  induction m with
  | nil => simp [Map.Remove, Map.Get]
  | cons kv rest ih =>
    obtain ⟨k, w⟩ := kv
    by_cases h : k = key
    · simpa [Map.Remove, List.filter_cons, h] using ih
    · simpa [Map.Remove, List.filter_cons, h, Map.Get] using ih

theorem Map.Get_Remove_other (m : Map) (key other : String) (h : other ≠ key) :
    Map.Get (Map.Remove m key) other = Map.Get m other := by
  induction m with
  | nil => simp [Map.Remove, Map.Get]
  | cons kv rest ih =>
    obtain ⟨k, w⟩ := kv
    by_cases hk : k = key
    · subst hk
      have ih2 : Map.Get (List.filter (fun kv => !decide (kv.1 = k)) rest) other =
          Map.Get rest other := ih
      simp [Map.Remove, List.filter_cons, Map.Get, Ne.symm h, ih2]
    · have ih2 : Map.Get (List.filter (fun kv => !decide (kv.1 = key)) rest) other =
          Map.Get rest other := ih
      simp [Map.Remove, List.filter_cons, hk, Map.Get, ih2]

theorem Map.Get_PutStr_same (m : Map) (key v : String) :
    Map.Get (Map.PutStr m key v) key = some (.str v) :=
  Map.Get_put_same m key (.str v)

theorem Map.Get_PutStr_other (m : Map) (key other v : String) (h : other ≠ key) :
    Map.Get (Map.PutStr m key v) other = Map.Get m other :=
  Map.Get_put_other m key other (.str v) h

theorem attrs_withAttrs (rb : otlpRequestBuilder) (m : Map) : (rb.withAttrs m).attrs = m := rfl

/-! ## Container identity -/

/-- C2, as stated, fails at the example of the specification: after the four setters with
cluster uid "c1", namespace "ns", pod UID "p1" and container name "ct" the presence
predicate holds, but `MatchContainerName "c1" "p1" "ns" "ct"` is false, because the
second parameter is the namespace and the third the pod UID. -/
theorem C2_argument_order_counterexample :
    HasContainerName (SetKubernetesContainerName (SetKubernetesPodUID
      (SetKubernetesNamespaceName (SetKubernetesClusterUid NewOtlpRequestBuilder "c1") "ns")
      "p1") "ct") = true ∧
    MatchContainerName (SetKubernetesContainerName (SetKubernetesPodUID
      (SetKubernetesNamespaceName (SetKubernetesClusterUid NewOtlpRequestBuilder "c1") "ns")
      "p1") "ct") "c1" "p1" "ns" "ct" = false := by
  decide

/-- C2, amended: after `SetKubernetesClusterUid c`, `SetKubernetesNamespaceName n`,
`SetKubernetesPodUID p`, `SetKubernetesContainerName t` (on a new builder, and on any
other builder state) `HasContainerName` is true and `MatchContainerName c n p t` is true,
with the arguments in the order cluster uid, namespace, pod UID, container name; with
namespace and pod UID exchanged the match is true exactly when they are equal. -/
theorem C2_match_after_four_setters (rb : otlpRequestBuilder) (c n p t : String) :
    HasContainerName (SetKubernetesContainerName (SetKubernetesPodUID
      (SetKubernetesNamespaceName (SetKubernetesClusterUid rb c) n) p) t) = true ∧
    MatchContainerName (SetKubernetesContainerName (SetKubernetesPodUID
      (SetKubernetesNamespaceName (SetKubernetesClusterUid rb c) n) p) t) c n p t = true ∧
    (MatchContainerName (SetKubernetesContainerName (SetKubernetesPodUID
      (SetKubernetesNamespaceName (SetKubernetesClusterUid rb c) n) p) t) c p n t = true
        ↔ n = p) := by
  have h1 : AttributeK8SContainerName ≠ AttributeK8SPodUID := by decide
  have h2 : AttributeK8SNamespaceName ≠ AttributeK8SPodUID := by decide
  have h3 : AttributeK8SNamespaceName ≠ AttributeK8SContainerName := by decide
  have h4 : "sw.k8s.cluster.uid" ≠ AttributeK8SNamespaceName := by decide
  have h5 : "sw.k8s.cluster.uid" ≠ AttributeK8SPodUID := by decide
  have h6 : "sw.k8s.cluster.uid" ≠ AttributeK8SContainerName := by decide
  have h7 : AttributeK8SPodUID ≠ AttributeK8SContainerName := by decide
  simp only [HasContainerName, MatchContainerName, SetKubernetesContainerName,
    SetKubernetesPodUID, SetKubernetesNamespaceName, SetKubernetesClusterUid, attrs_withAttrs,
    Map.Get_PutStr_same, Map.Get_PutStr_other _ _ _ _ h7, Map.Get_PutStr_other _ _ _ _ h2,
    Map.Get_PutStr_other _ _ _ _ h3, Map.Get_PutStr_other _ _ _ _ h4,
    Map.Get_PutStr_other _ _ _ _ h5, Map.Get_PutStr_other _ _ _ _ h6, Value.Str]
  refine ⟨by simp, by simp, ?_⟩
  constructor
  · intro h
    simp only [Bool.and_eq_true, beq_iff_eq] at h
    exact h.1.2
  · intro h
    simp [h]

/-- C3: `MatchContainerName clusterUid namespaceName podName containerName` is true if
and only if the resource context holds all four of the cluster-uid, namespace, pod-UID
and container-name attributes and their string values equal `clusterUid`,
`namespaceName`, `podName` and `containerName` in this order; when any one of the four
attributes is absent the result is false for all arguments. -/
theorem C3_MatchContainerName_iff (rb : otlpRequestBuilder)
    (clusterUid namespaceName podName containerName : String) :
    (MatchContainerName rb clusterUid namespaceName podName containerName = true ↔
      ∃ vc vn vp vt : Value,
        rb.attrs.Get "sw.k8s.cluster.uid" = some vc ∧
        rb.attrs.Get AttributeK8SNamespaceName = some vn ∧
        rb.attrs.Get AttributeK8SPodUID = some vp ∧
        rb.attrs.Get AttributeK8SContainerName = some vt ∧
        vc.Str = clusterUid ∧ vn.Str = namespaceName ∧ vp.Str = podName ∧
        vt.Str = containerName) ∧
    ((rb.attrs.Get "sw.k8s.cluster.uid" = none ∨
        rb.attrs.Get AttributeK8SNamespaceName = none ∨
        rb.attrs.Get AttributeK8SPodUID = none ∨
        rb.attrs.Get AttributeK8SContainerName = none) →
      MatchContainerName rb clusterUid namespaceName podName containerName = false) := by
  unfold MatchContainerName
  cases hc : rb.attrs.Get "sw.k8s.cluster.uid" <;>
    cases hn : rb.attrs.Get AttributeK8SNamespaceName <;>
    cases hp : rb.attrs.Get AttributeK8SPodUID <;>
    cases ht : rb.attrs.Get AttributeK8SContainerName <;>
    simp
  tauto

/-- Witness for C3: a builder with the four attributes set matches its own values, and a
new builder, where the attributes are absent, matches nothing. -/
theorem C3_MatchContainerName_iff_witness :
    (MatchContainerName (SetKubernetesContainerName (SetKubernetesPodUID
        (SetKubernetesNamespaceName (SetKubernetesClusterUid NewOtlpRequestBuilder "c1") "ns")
        "p1") "ct") "c1" "ns" "p1" "ct" = true) ∧
    MatchContainerName NewOtlpRequestBuilder "" "" "" "" = false :=
  ⟨by decide,
    (C3_MatchContainerName_iff NewOtlpRequestBuilder "" "" "" "").2 (Or.inl (by decide))⟩

/-! ## Log stream and host id -/

/-- The state `SetLogStream` reaches before its final conditional: the log-stream
attribute is written and each parsed field is replaced when its pattern matched. -/
theorem SetLogStream_eq (rb : otlpRequestBuilder) (s : String) :
    SetLogStream rb s =
      if (parsedHostIdOf s).getD rb.parsedHostId ≠ "" ∧ rb.hostId = "" then
        SetHostId
          { resLogs := { rb.resLogs with
              attributes := rb.attrs.PutStr AttributeAWSLogStreamNames s }
            instrLogs := rb.instrLogs
            hostId := rb.hostId
            parsedRegion := (parsedRegionOf s).getD rb.parsedRegion
            parsedHostId := (parsedHostIdOf s).getD rb.parsedHostId } s
      else
        { resLogs := { rb.resLogs with
            attributes := rb.attrs.PutStr AttributeAWSLogStreamNames s }
          instrLogs := rb.instrLogs
          hostId := rb.hostId
          parsedRegion := (parsedRegionOf s).getD rb.parsedRegion
          parsedHostId := (parsedHostIdOf s).getD rb.parsedHostId } := by
  unfold SetLogStream parsedHostIdOf parsedRegionOf
  cases submatchAt (detectHostIdRegExp.FindStringSubmatch s)
      (detectHostIdRegExp.SubexpIndex "HostId") <;>
    cases submatchAt (detectRegionRegExp.FindStringSubmatch s)
      (detectRegionRegExp.SubexpIndex "Region") <;>
    simp [HasHostId, otlpRequestBuilder.withAttrs, otlpRequestBuilder.attrs]

theorem submatchAt_nil (i : Int) : submatchAt [] i = none := by
  unfold submatchAt
  split
  · rename_i h
    simp at h
    omega
  · rfl

theorem SetHostId_hostId (rb : otlpRequestBuilder) (h : String) : (SetHostId rb h).hostId = h := by
  unfold SetHostId
  by_cases hh : h = "" <;> simp [hh, otlpRequestBuilder.withAttrs]

theorem SetHostId_attrs_of_ne (rb : otlpRequestBuilder) (h : String) (hh : h ≠ "") :
    (SetHostId rb h).attrs =
      (rb.attrs.PutStr AttributeHostID h).PutStr AttributeCloudPlatform
        AttributeCloudPlatformAWSEC2 := by
  unfold SetHostId
  simp [hh, otlpRequestBuilder.withAttrs, otlpRequestBuilder.attrs]

theorem SetHostId_attrs_of_eq (rb : otlpRequestBuilder) :
    (SetHostId rb "").attrs =
      (rb.attrs.Remove AttributeHostID).Remove AttributeCloudPlatform := by
  unfold SetHostId
  simp [otlpRequestBuilder.withAttrs, otlpRequestBuilder.attrs]

theorem SetHostId_frame (rb : otlpRequestBuilder) (h : String) :
    (SetHostId rb h).resLogs.scopeLogs = rb.resLogs.scopeLogs ∧
    (SetHostId rb h).resLogs.schemaUrl = rb.resLogs.schemaUrl ∧
    (SetHostId rb h).instrLogs = rb.instrLogs ∧
    (SetHostId rb h).parsedRegion = rb.parsedRegion ∧
    (SetHostId rb h).parsedHostId = rb.parsedHostId := by
  unfold SetHostId
  by_cases hh : h = "" <;> simp [hh, otlpRequestBuilder.withAttrs]

theorem SetLogStream_frame (rb : otlpRequestBuilder) (s : String) :
    (SetLogStream rb s).resLogs.scopeLogs = rb.resLogs.scopeLogs ∧
    (SetLogStream rb s).resLogs.schemaUrl = rb.resLogs.schemaUrl ∧
    (SetLogStream rb s).instrLogs = rb.instrLogs ∧
    (SetLogStream rb s).parsedRegion = (parsedRegionOf s).getD rb.parsedRegion ∧
    (SetLogStream rb s).parsedHostId = (parsedHostIdOf s).getD rb.parsedHostId := by
  rw [SetLogStream_eq]
  split
  · obtain ⟨h1, h2, h3, h4, h5⟩ := SetHostId_frame
      { resLogs := { rb.resLogs with
          attributes := rb.attrs.PutStr AttributeAWSLogStreamNames s }
        instrLogs := rb.instrLogs
        hostId := rb.hostId
        parsedRegion := (parsedRegionOf s).getD rb.parsedRegion
        parsedHostId := (parsedHostIdOf s).getD rb.parsedHostId } s
    exact ⟨h1, h2, h3, h4, h5⟩
  · exact ⟨rfl, rfl, rfl, rfl, rfl⟩

/-- What `SetLogStream` does when no host id is set and the host-id pattern extracts a
non-empty token: the host id becomes the whole log-stream string. -/
theorem SetLogStream_sets_whole_stream (rb : otlpRequestBuilder) (s p : String)
    (hNoHost : HasHostId rb = false) (hp : parsedHostIdOf s = some p) (hne : p ≠ "") :
    (SetLogStream rb s).hostId = s ∧
    (SetLogStream rb s).attrs.Get AttributeHostID = some (.str s) ∧
    (SetLogStream rb s).attrs.Get AttributeCloudPlatform =
      some (.str AttributeCloudPlatformAWSEC2) := by
  have hh : rb.hostId = "" := by
    simpa [HasHostId] using hNoHost
  have hs : s ≠ "" := by
    intro hs
    subst hs
    have h0 : parsedHostIdOf "" = none := by decide
    rw [h0] at hp
    cases hp
  rw [SetLogStream_eq]
  simp only [hp, Option.getD_some, ne_eq, hne, not_false_eq_true, hh, and_self, if_true]
  refine ⟨SetHostId_hostId _ s, ?_, ?_⟩
  · rw [SetHostId_attrs_of_ne _ s hs, Map.Get_PutStr_other _ _ _ _ (by decide),
      Map.Get_PutStr_same]
  · rw [SetHostId_attrs_of_ne _ s hs, Map.Get_PutStr_same]

/-- C1 at the input "i-abc123/var/log" on a new builder, where no host id is set: the
host-id pattern extracts the token "i-abc123", yet `SetLogStream` passes the whole
log-stream string to `SetHostId`, so the host id (field and resource attribute) is
"i-abc123/var/log"; the cloud-platform attribute is AWS EC2. -/
theorem C1_host_id_is_whole_log_stream :
    HasHostId NewOtlpRequestBuilder = false ∧
    parsedHostIdOf "i-abc123/var/log" = some "i-abc123" ∧
    (SetLogStream NewOtlpRequestBuilder "i-abc123/var/log").parsedHostId = "i-abc123" ∧
    (SetLogStream NewOtlpRequestBuilder "i-abc123/var/log").hostId = "i-abc123/var/log" ∧
    (SetLogStream NewOtlpRequestBuilder "i-abc123/var/log").attrs.Get AttributeHostID =
      some (.str "i-abc123/var/log") ∧
    (SetLogStream NewOtlpRequestBuilder "i-abc123/var/log").attrs.Get AttributeCloudPlatform =
      some (.str AttributeCloudPlatformAWSEC2) := by
  decide

/-- C5, as stated, fails: on the builder reached by `SetLogStream "i-abc123"` and then
`SetHostId ""` no host id is set, and "foo" does not match the host-id pattern, yet
`SetLogStream "foo"` sets the host id to "foo", because the parsed host id of the
earlier call is still in place. -/
theorem C5_stale_parsed_host_id_counterexample :
    HasHostId (SetHostId (SetLogStream NewOtlpRequestBuilder "i-abc123") "") = false ∧
    detectHostIdRegExp.FindStringSubmatch "foo" = [] ∧
    HasHostId (SetLogStream (SetHostId (SetLogStream NewOtlpRequestBuilder "i-abc123") "")
      "foo") = true ∧
    (SetLogStream (SetHostId (SetLogStream NewOtlpRequestBuilder "i-abc123") "")
      "foo").attrs.Get AttributeHostID = some (.str "foo") ∧
    (SetLogStream (SetHostId (SetLogStream NewOtlpRequestBuilder "i-abc123") "")
      "foo").attrs.Get AttributeCloudPlatform = some (.str AttributeCloudPlatformAWSEC2) := by
  decide

/-- C5, amended: for every builder state in which no host id is set and the parsed host
id is empty (a new builder, or one on which no earlier `SetLogStream` matched the host-id
pattern), and every log-stream string `s` that does not match the host-id pattern,
`SetLogStream s` leaves the host id unset: `HasHostId` is still false, the parsed host id
is still empty, and the host-id and cloud-platform attributes are as they were (absent
when they were absent). -/
theorem C5_unmatched_stream_leaves_host_id_unset (rb : otlpRequestBuilder) (s : String)
    (hNoHost : HasHostId rb = false) (hParsed : rb.parsedHostId = "")
    (hNoMatch : detectHostIdRegExp.FindStringSubmatch s = []) :
    HasHostId (SetLogStream rb s) = false ∧
    (SetLogStream rb s).parsedHostId = "" ∧
    (SetLogStream rb s).attrs.Get AttributeHostID = rb.attrs.Get AttributeHostID ∧
    (SetLogStream rb s).attrs.Get AttributeCloudPlatform =
      rb.attrs.Get AttributeCloudPlatform := by
  have hp : parsedHostIdOf s = none := by
    unfold parsedHostIdOf
    rw [hNoMatch]
    exact submatchAt_nil _
  have hh : rb.hostId = "" := by
    simpa [HasHostId] using hNoHost
  rw [SetLogStream_eq]
  simp only [hp, hParsed, Option.getD_none, ne_eq, not_true_eq_false, false_and, if_false]
  refine ⟨by simp [HasHostId, hh], by first | rfl | trivial, ?_, ?_⟩
  · exact Map.Get_PutStr_other _ _ _ _ (by decide)
  · exact Map.Get_PutStr_other _ _ _ _ (by decide)

/-- Witness for C5 (amended): a new builder and the stream "foo". -/
theorem C5_unmatched_stream_leaves_host_id_unset_witness :
    HasHostId (SetLogStream NewOtlpRequestBuilder "foo") = false ∧
    (SetLogStream NewOtlpRequestBuilder "foo").parsedHostId = "" ∧
    (SetLogStream NewOtlpRequestBuilder "foo").attrs.Get AttributeHostID =
      NewOtlpRequestBuilder.attrs.Get AttributeHostID ∧
    (SetLogStream NewOtlpRequestBuilder "foo").attrs.Get AttributeCloudPlatform =
      NewOtlpRequestBuilder.attrs.Get AttributeCloudPlatform :=
  C5_unmatched_stream_leaves_host_id_unset NewOtlpRequestBuilder "foo" (by decide) (by decide)
    (by decide)

/-- C6: host-id precedence by call order. For every builder state, every non-empty `h`
and every log-stream string `s`, `SetHostId h` followed by `SetLogStream s` leaves the
host id (field and resource attribute) equal to `h`; and for every `h` and `s`,
`SetLogStream s` followed by `SetHostId h` leaves the host id equal to `h`, the attribute
being absent and `HasHostId` false when `h` is empty. -/
theorem C6_host_id_precedence (rb : otlpRequestBuilder) (h s : String) :
    (h ≠ "" →
      (SetLogStream (SetHostId rb h) s).hostId = h ∧
      MatchHostId (SetLogStream (SetHostId rb h) s) h = true ∧
      HasHostId (SetLogStream (SetHostId rb h) s) = true ∧
      (SetLogStream (SetHostId rb h) s).attrs.Get AttributeHostID = some (.str h)) ∧
    ((SetHostId (SetLogStream rb s) h).hostId = h ∧
      MatchHostId (SetHostId (SetLogStream rb s) h) h = true ∧
      HasHostId (SetHostId (SetLogStream rb s) h) = decide (h ≠ "") ∧
      (SetHostId (SetLogStream rb s) h).attrs.Get AttributeHostID =
        if h = "" then none else some (.str h)) := by
  constructor
  · intro hne
    have hid : (SetHostId rb h).hostId = h := SetHostId_hostId rb h
    have hcond : ¬ ((parsedHostIdOf s).getD (SetHostId rb h).parsedHostId ≠ "" ∧
        (SetHostId rb h).hostId = "") := by
      rw [hid]
      exact fun hc => hne hc.2
    rw [SetLogStream_eq, if_neg hcond]
    refine ⟨hid, by simp [MatchHostId, hid], by simp [HasHostId, hid, hne], ?_⟩
    show Map.Get (Map.PutStr (SetHostId rb h).attrs AttributeAWSLogStreamNames s)
      AttributeHostID = some (.str h)
    rw [Map.Get_PutStr_other _ _ _ _ (by decide), SetHostId_attrs_of_ne rb h hne,
      Map.Get_PutStr_other _ _ _ _ (by decide), Map.Get_PutStr_same]
  · have hid : (SetHostId (SetLogStream rb s) h).hostId = h := SetHostId_hostId _ h
    refine ⟨hid, by simp [MatchHostId, hid], ?_, ?_⟩
    · unfold HasHostId
      rw [hid]
      by_cases hh : h = "" <;> simp [hh]
    by_cases hh : h = ""
    · subst hh
      rw [SetHostId_attrs_of_eq, Map.Get_Remove_other _ _ _ (by decide),
        Map.Get_Remove_same]
      simp
    · rw [SetHostId_attrs_of_ne _ h hh, Map.Get_PutStr_other _ _ _ _ (by decide),
        Map.Get_PutStr_same]
      simp [hh]

/-- Witness for C6: an explicit host id set before the stream "i-abc123" is kept. -/
theorem C6_host_id_precedence_witness :
    (SetLogStream (SetHostId NewOtlpRequestBuilder "explicit") "i-abc123").hostId = "explicit" ∧
    (SetLogStream (SetHostId NewOtlpRequestBuilder "explicit") "i-abc123").attrs.Get
      AttributeHostID = some (.str "explicit") :=
  ⟨((C6_host_id_precedence NewOtlpRequestBuilder "explicit" "i-abc123").1 (by decide)).1,
    ((C6_host_id_precedence NewOtlpRequestBuilder "explicit" "i-abc123").1 (by decide)).2.2.2⟩

/-! ## Attribute merge of `AddLogEntry` -/

theorem Get_putAttribute (a : Map) (kv : String × GoValue) (k : String) :
    Map.Get (putAttribute a kv) k =
      if kv.1 = k then (kv.2.written <|> Map.Get a k) else Map.Get a k := by
  obtain ⟨key, v⟩ := kv
  by_cases h : key = k
  · subst h
    cases v <;> simp [putAttribute, GoValue.written, Map.PutStr, Map.PutInt, Map.Get_put_same]
  · have h2 : k ≠ key := fun e => h e.symm
    cases v <;>
      simp [putAttribute, GoValue.written, Map.PutStr, Map.PutInt, h,
        Map.Get_put_other _ _ _ _ h2]

theorem Get_foldl_putAttribute (l : List (String × GoValue)) (hl : (l.map Prod.fst).Nodup)
    (a : Map) (k : String) :
    Map.Get (l.foldl putAttribute a) k =
      ((((l.find? (fun kv => kv.1 == k)).map Prod.snd).bind GoValue.written) <|> Map.Get a k) := by
  induction l generalizing a with
  | nil => simp
  | cons kv rest ih =>
    have hnd : (rest.map Prod.fst).Nodup := (List.nodup_cons.mp hl).2
    have hnotin : kv.1 ∉ rest.map Prod.fst := (List.nodup_cons.mp hl).1
    rw [List.foldl_cons, ih hnd, Get_putAttribute]
    by_cases h : kv.1 = k
    · have hnone : rest.find? (fun x => x.1 == k) = none := by
        rw [List.find?_eq_none]
        intro x hx hxk
        apply hnotin
        have : x.1 = kv.1 := by
          rw [h]
          simpa using hxk
        rw [← this]
        exact List.mem_map_of_mem Prod.fst hx
      simp [h, hnone, List.find?_cons]
    · simp [h, List.find?_cons]

theorem Get_mergeMap (m : GoMap GoValue) (a : Map) (k : String) :
    Map.Get (m.entries.foldl putAttribute a) k =
      (((m.lookup k).bind GoValue.written) <|> Map.Get a k) :=
  Get_foldl_putAttribute m.entries m.nodup a k

theorem Get_putAttributes (ms : List (GoMap GoValue)) (a : Map) (k : String) :
    Map.Get (putAttributes a ms) k =
      ms.foldl (fun acc m => ((m.lookup k).bind GoValue.written) <|> acc) (Map.Get a k) := by
  induction ms generalizing a with
  | nil => rfl
  | cons m rest ih =>
    unfold putAttributes at ih ⊢
    rw [List.foldl_cons, ih, Get_mergeMap, List.foldl_cons]

theorem foldl_written_of_none (ms : List (GoMap GoValue)) (k : String) (init : Option Value)
    (h : ∀ m ∈ ms, (m.lookup k).bind GoValue.written = none) :
    ms.foldl (fun acc m => ((m.lookup k).bind GoValue.written) <|> acc) init = init := by
  induction ms generalizing init with
  | nil => rfl
  | cons m rest ih =>
    rw [List.foldl_cons, h m (List.mem_cons_self _ _)]
    simpa using ih init (fun m' hm' => h m' (List.mem_cons_of_mem _ hm'))

theorem foldl_written_last (pre post : List (GoMap GoValue)) (m : GoMap GoValue) (k : String)
    (init : Option Value) (v : Value) (hm : (m.lookup k).bind GoValue.written = some v)
    (h : ∀ m1 ∈ post, (m1.lookup k).bind GoValue.written = none) :
    (pre ++ m :: post).foldl (fun acc m => ((m.lookup k).bind GoValue.written) <|> acc) init =
      some v := by
  rw [List.foldl_append, List.foldl_cons, hm]
  simpa using foldl_written_of_none post k (some v) h

theorem foldl_written_isSome (ms : List (GoMap GoValue)) (k : String) (init : Option Value) :
    (ms.foldl (fun acc m => ((m.lookup k).bind GoValue.written) <|> acc) init).isSome = true ↔
      init.isSome = true ∨ ∃ m ∈ ms, ((m.lookup k).bind GoValue.written).isSome = true := by
  induction ms generalizing init with
  | nil => simp
  | cons m rest ih =>
    rw [List.foldl_cons, ih]
    cases hw : (m.lookup k).bind GoValue.written <;> cases init <;> simp [hw]

theorem written_eq_none_iff (o : Option GoValue) :
    o.bind GoValue.written = none ↔
      (∀ x, o ≠ some (.string x)) ∧ (∀ i, o ≠ some (.int i)) := by
  cases o with
  | none => simp
  | some v => cases v <;> simp [GoValue.written]

theorem written_isSome_iff (o : Option GoValue) :
    (o.bind GoValue.written).isSome = true ↔
      (∃ x, o = some (.string x)) ∨ (∃ i, o = some (.int i)) := by
  cases o with
  | none => simp
  | some v => cases v <;> simp [GoValue.written]

/-! ## Appending entries -/

theorem Inv_NewOtlpRequestBuilder : Inv NewOtlpRequestBuilder := Or.inl rfl

theorem Inv_of_frame (rb rb1 : otlpRequestBuilder)
    (h1 : rb1.resLogs.scopeLogs = rb.resLogs.scopeLogs) (h2 : rb1.instrLogs = rb.instrLogs)
    (h : Inv rb) : Inv rb1 := by
  unfold Inv otlpRequestBuilder.instrLogsSlice at *
  rw [h1, h2]
  exact h

theorem Inv_SetHostId (rb : otlpRequestBuilder) (h : String) (hInv : Inv rb) :
    Inv (SetHostId rb h) :=
  Inv_of_frame rb _ (SetHostId_frame rb h).1 (SetHostId_frame rb h).2.2.1 hInv

theorem Inv_SetLogStream (rb : otlpRequestBuilder) (s : String) (hInv : Inv rb) :
    Inv (SetLogStream rb s) :=
  Inv_of_frame rb _ (SetLogStream_frame rb s).1 (SetLogStream_frame rb s).2.2.1 hInv

theorem entries_SetLogStream (rb : otlpRequestBuilder) (s : String) :
    (SetLogStream rb s).entries = rb.entries := by
  unfold otlpRequestBuilder.entries
  rw [(SetLogStream_frame rb s).1]

/-- On a builder that satisfies the invariant `AddLogEntry` returns, and the document
then has one scope: the earlier records followed by the filled record. -/
theorem AddLogEntry_eq (rb : otlpRequestBuilder) (hInv : Inv rb) (itemId : String)
    (timestamp : Int) (message region : String) (attributes : List (GoMap GoValue)) :
    AddLogEntry rb itemId timestamp message region attributes =
      some
        { resLogs := { rb.resLogs with
            scopeLogs := [{ logRecords := rb.entries ++
              [fillLogEntry rb LogRecord.new itemId timestamp message region attributes] }] }
          instrLogs := some 0
          hostId := rb.hostId
          parsedRegion := rb.parsedRegion
          parsedHostId := rb.parsedHostId } := by
  rcases hInv with h | ⟨hlen, hi⟩
  · have h0 : rb.resLogs.scopeLogs = [] := h
    simp [AddLogEntry, otlpRequestBuilder.instrLogsSlice, otlpRequestBuilder.entries, h0,
      fillLogEntry]
  · have hl : rb.resLogs.scopeLogs.length = 1 := hlen
    obtain ⟨sc, hsc⟩ := List.length_eq_one.mp hl
    simp [AddLogEntry, otlpRequestBuilder.instrLogsSlice, otlpRequestBuilder.entries, hsc, hi,
      fillLogEntry]

theorem fillLogEntry_fields (rb : otlpRequestBuilder) (itemId : String) (timestamp : Int)
    (message region : String) (attributes : List (GoMap GoValue)) :
    (fillLogEntry rb LogRecord.new itemId timestamp message region attributes).eventName =
      itemId ∧
    (fillLogEntry rb LogRecord.new itemId timestamp message region attributes).timestamp =
      Timestamp timestamp ∧
    (fillLogEntry rb LogRecord.new itemId timestamp message region attributes).body =
      .str message := by
  by_cases hr : region = "" <;> by_cases hp : rb.parsedRegion = "" <;>
    simp [fillLogEntry, hr, hp]

theorem fillLogEntry_attributes (rb : otlpRequestBuilder) (itemId : String) (timestamp : Int)
    (message region : String) (attributes : List (GoMap GoValue)) (k : String) :
    Map.Get (fillLogEntry rb LogRecord.new itemId timestamp message region attributes).attributes
        k =
      attributes.foldl (fun acc m => ((m.lookup k).bind GoValue.written) <|> acc)
        (if k = AttributeCloudRegion then
          (if region ≠ "" then some (.str region)
            else if rb.parsedRegion ≠ "" then some (.str rb.parsedRegion) else none)
          else none) := by
  unfold fillLogEntry
  simp only [LogRecord.new]
  rw [Get_putAttributes]
  congr 1
  by_cases hk : k = AttributeCloudRegion
  · subst hk
    by_cases hr : region = "" <;> by_cases hp : rb.parsedRegion = "" <;>
      simp [hr, hp, Map.PutStr, Map.put, Map.Get]
  · have hk2 : ¬ AttributeCloudRegion = k := fun e => hk e.symm
    by_cases hr : region = "" <;> by_cases hp : rb.parsedRegion = "" <;>
      simp [hr, hp, hk, hk2, Map.PutStr, Map.put, Map.Get]

theorem entries_single (l : List LogRecord) (r : ResourceLogs) (i : Option Nat)
    (h pr ph : String) :
    otlpRequestBuilder.entries
      { resLogs := { r with scopeLogs := [{ logRecords := l }] }
        instrLogs := i, hostId := h, parsedRegion := pr, parsedHostId := ph } = l := by
  simp [otlpRequestBuilder.entries]

/-- The record appended by `AddLogEntry`: the call returns, the records of the document
are the earlier ones followed by the filled record. -/
theorem AddLogEntry_appends (rb : otlpRequestBuilder) (hInv : Inv rb) (itemId : String)
    (timestamp : Int) (message region : String) (attributes : List (GoMap GoValue)) :
    ∃ rb1, AddLogEntry rb itemId timestamp message region attributes = some rb1 ∧
      rb1.entries = rb.entries ++
        [fillLogEntry rb LogRecord.new itemId timestamp message region attributes] :=
  ⟨_, AddLogEntry_eq rb hInv itemId timestamp message region attributes, entries_single _ _ _ _ _ _⟩

theorem fillLogEntry_not_written (rb : otlpRequestBuilder) (itemId : String) (timestamp : Int)
    (message region : String) (attributes : List (GoMap GoValue)) (k : String)
    (h : ∀ m ∈ attributes,
      (∀ x, m.lookup k ≠ some (.string x)) ∧ (∀ i, m.lookup k ≠ some (.int i))) :
    Map.Get (fillLogEntry rb LogRecord.new itemId timestamp message region attributes).attributes
        k =
      (if k = AttributeCloudRegion then
        (if region ≠ "" then some (.str region)
          else if rb.parsedRegion ≠ "" then some (.str rb.parsedRegion) else none)
        else none) := by
  rw [fillLogEntry_attributes]
  exact foldl_written_of_none attributes k _
    (fun m hm => (written_eq_none_iff _).mpr (h m hm))

theorem fillLogEntry_last_wins (rb : otlpRequestBuilder) (itemId : String) (timestamp : Int)
    (message region : String) (pre post : List (GoMap GoValue)) (m : GoMap GoValue) (k : String)
    (h : ∀ m1 ∈ post,
      (∀ x, m1.lookup k ≠ some (.string x)) ∧ (∀ i, m1.lookup k ≠ some (.int i))) :
    (∀ x, m.lookup k = some (.string x) →
      Map.Get (fillLogEntry rb LogRecord.new itemId timestamp message region
        (pre ++ m :: post)).attributes k = some (.str x)) ∧
    (∀ i, m.lookup k = some (.int i) →
      Map.Get (fillLogEntry rb LogRecord.new itemId timestamp message region
        (pre ++ m :: post)).attributes k = some (.int i)) := by
  have hpost : ∀ m1 ∈ post, (m1.lookup k).bind GoValue.written = none :=
    fun m1 hm1 => (written_eq_none_iff _).mpr (h m1 hm1)
  constructor
  · intro x hx
    rw [fillLogEntry_attributes]
    exact foldl_written_last pre post m k _ (.str x) (by simp [hx, GoValue.written]) hpost
  · intro i hi
    rw [fillLogEntry_attributes]
    exact foldl_written_last pre post m k _ (.int i) (by simp [hi, GoValue.written]) hpost

/-! ## Region of an entry -/

/-- C4, as stated, fails: after `SetLogStream "foo-us-east-1-bar"` the parsed region is
"us-east-1"; the stream "foo" contains no region-shaped token, yet an entry appended
after `SetLogStream "foo"` with an empty region argument and no attribute maps carries
the cloud-region attribute "us-east-1", because the parsed region is only assigned when
the pattern matches. -/
theorem C4_stale_parsed_region_counterexample :
    detectRegionRegExp.FindStringSubmatch "foo" = [] ∧
    (SetLogStream (SetLogStream NewOtlpRequestBuilder "foo-us-east-1-bar") "foo").parsedRegion =
      "us-east-1" ∧
    (AddLogEntry (SetLogStream (SetLogStream NewOtlpRequestBuilder "foo-us-east-1-bar") "foo")
      "ev1" 1000 "hello" "" []).map
        (fun rb => rb.entries.map (fun e => e.attributes.Get AttributeCloudRegion)) =
      some [some (.str "us-east-1")] := by
  decide

/-- C4, amended: for every builder state whose parsed region is empty (a new builder, or
one on which no earlier `SetLogStream` found a region) and every log-stream string `s`
that contains no region-shaped token, after `SetLogStream s` the parsed region is still
empty and an entry appended by `AddLogEntry` with an empty region argument and no
attribute maps carries no cloud-region attribute. -/
theorem C4_no_region_without_match (rb : otlpRequestBuilder) (hInv : Inv rb)
    (hEmpty : rb.parsedRegion = "") (s : String)
    (hNoMatch : detectRegionRegExp.FindStringSubmatch s = [])
    (itemId : String) (timestamp : Int) (message : String) :
    (SetLogStream rb s).parsedRegion = "" ∧
    ∃ rb1 e, AddLogEntry (SetLogStream rb s) itemId timestamp message "" [] = some rb1 ∧
      rb1.entries = rb.entries ++ [e] ∧
      e.attributes.Get AttributeCloudRegion = none := by
  have hp : parsedRegionOf s = none := by
    unfold parsedRegionOf
    rw [hNoMatch]
    exact submatchAt_nil _
  have hkept : (SetLogStream rb s).parsedRegion = "" := by
    rw [(SetLogStream_frame rb s).2.2.2.1, hp, ← hEmpty]
    rfl
  refine ⟨hkept, ?_⟩
  obtain ⟨rb1, h1, h2⟩ := AddLogEntry_appends (SetLogStream rb s) (Inv_SetLogStream rb s hInv)
    itemId timestamp message "" []
  refine ⟨rb1, _, h1, by rw [h2, entries_SetLogStream], ?_⟩
  rw [fillLogEntry_not_written _ _ _ _ _ _ _ (by simp), hkept]
  simp

/-- Witness for C4 (amended): a new builder and the stream "foo". -/
theorem C4_no_region_without_match_witness :
    (SetLogStream NewOtlpRequestBuilder "foo").parsedRegion = "" ∧
    ∃ rb1 e, AddLogEntry (SetLogStream NewOtlpRequestBuilder "foo") "ev1" 1000 "hello" "" [] =
        some rb1 ∧
      rb1.entries = NewOtlpRequestBuilder.entries ++ [e] ∧
      e.attributes.Get AttributeCloudRegion = none :=
  C4_no_region_without_match NewOtlpRequestBuilder Inv_NewOtlpRequestBuilder (by decide) "foo"
    (by decide) "ev1" 1000 "hello"

/-- C7: region precedence. For every builder state and every `AddLogEntry` call whose
attribute maps do not contain the cloud-region key, the call appends one entry whose
cloud-region attribute is the region argument when that is non-empty, otherwise the parsed
region of the builder when that is non-empty, and otherwise is absent. In particular, on a
new builder, `SetLogStream "foo-us-east-1-bar"` followed by `AddLogEntry` with an empty
region gives an entry whose cloud-region is "us-east-1". -/
theorem C7_region_precedence :
    (∀ (rb : otlpRequestBuilder) (itemId : String) (timestamp : Int) (message region : String)
        (attributes : List (GoMap GoValue)),
      Inv rb → (∀ m ∈ attributes, m.lookup AttributeCloudRegion = none) →
      ∃ rb1 e, AddLogEntry rb itemId timestamp message region attributes = some rb1 ∧
        rb1.entries = rb.entries ++ [e] ∧
        e.attributes.Get AttributeCloudRegion =
          if region ≠ "" then some (.str region)
          else if rb.parsedRegion ≠ "" then some (.str rb.parsedRegion) else none) ∧
    (∀ (itemId : String) (timestamp : Int) (message : String)
        (attributes : List (GoMap GoValue)),
      (∀ m ∈ attributes, m.lookup AttributeCloudRegion = none) →
      ∃ rb1 e, AddLogEntry (SetLogStream NewOtlpRequestBuilder "foo-us-east-1-bar") itemId
          timestamp message "" attributes = some rb1 ∧
        rb1.entries = [e] ∧
        e.attributes.Get AttributeCloudRegion = some (.str "us-east-1")) := by
  have general : ∀ (rb : otlpRequestBuilder) (itemId : String) (timestamp : Int)
      (message region : String) (attributes : List (GoMap GoValue)),
      Inv rb → (∀ m ∈ attributes, m.lookup AttributeCloudRegion = none) →
      ∃ rb1 e, AddLogEntry rb itemId timestamp message region attributes = some rb1 ∧
        rb1.entries = rb.entries ++ [e] ∧
        e.attributes.Get AttributeCloudRegion =
          if region ≠ "" then some (.str region)
          else if rb.parsedRegion ≠ "" then some (.str rb.parsedRegion) else none := by
    intro rb itemId timestamp message region attributes hInv hmaps
    obtain ⟨rb1, h1, h2⟩ := AddLogEntry_appends rb hInv itemId timestamp message region attributes
    refine ⟨rb1, _, h1, h2, ?_⟩
    rw [fillLogEntry_not_written _ _ _ _ _ _ _ (fun m hm => by simp [hmaps m hm])]
    simp
  refine ⟨general, ?_⟩
  intro itemId timestamp message attributes hmaps
  obtain ⟨rb1, e, h1, h2, h3⟩ := general (SetLogStream NewOtlpRequestBuilder "foo-us-east-1-bar")
    itemId timestamp message "" attributes
    (Inv_SetLogStream _ _ Inv_NewOtlpRequestBuilder) hmaps
  refine ⟨rb1, e, h1, ?_, ?_⟩
  · rw [h2, entries_SetLogStream]
    rfl
  · rw [h3]
    have hp : (SetLogStream NewOtlpRequestBuilder "foo-us-east-1-bar").parsedRegion =
        "us-east-1" := by decide
    rw [hp]
    decide

/-- Witness for C7: a new builder, the explicit region "eu-west-1" and the example map. -/
theorem C7_region_precedence_witness :
    ∃ rb1 e, AddLogEntry NewOtlpRequestBuilder "ev1" 1000 "hello" "eu-west-1"
        [exampleAttributes] = some rb1 ∧
      rb1.entries = NewOtlpRequestBuilder.entries ++ [e] ∧
      e.attributes.Get AttributeCloudRegion =
        if "eu-west-1" ≠ "" then some (.str "eu-west-1")
        else if NewOtlpRequestBuilder.parsedRegion ≠ "" then
          some (.str NewOtlpRequestBuilder.parsedRegion) else none :=
  C7_region_precedence.1 NewOtlpRequestBuilder "ev1" 1000 "hello" "eu-west-1"
    [exampleAttributes] Inv_NewOtlpRequestBuilder (by decide)

/-- C8, as stated, fails: with the non-empty region argument "us-east-1" and an attribute
map that holds the cloud-region key with the string "eu-west-1", the appended entry has
cloud-region "eu-west-1": the attribute maps are merged after the region is written. -/
theorem C8_region_overridden_by_map_counterexample :
    (AddLogEntry NewOtlpRequestBuilder "ev1" 1000 "hello" "us-east-1" [regionOverrideMap]).map
        (fun rb => rb.entries.map (fun e => e.attributes.Get AttributeCloudRegion)) =
      some [some (.str "eu-west-1")] := by
  decide

/-- C8, amended: for every builder state, every non-empty region `r` and every sequence of
attribute maps, `AddLogEntry` appends one entry whose cloud-region attribute equals `r`
when no map gives the cloud-region key a string or integer value; when some map does, the
attribute is the value given by the last such map in argument order. -/
theorem C8_explicit_region_unless_map_overrides (rb : otlpRequestBuilder) (hInv : Inv rb)
    (itemId : String) (timestamp : Int) (message r : String)
    (attributes : List (GoMap GoValue)) (hr : r ≠ "") :
    ∃ rb1 e, AddLogEntry rb itemId timestamp message r attributes = some rb1 ∧
      rb1.entries = rb.entries ++ [e] ∧
      ((∀ m ∈ attributes, (∀ x, m.lookup AttributeCloudRegion ≠ some (.string x)) ∧
          (∀ i, m.lookup AttributeCloudRegion ≠ some (.int i))) →
        e.attributes.Get AttributeCloudRegion = some (.str r)) ∧
      (∀ pre m post, attributes = pre ++ m :: post →
        (∀ m1 ∈ post, (∀ x, m1.lookup AttributeCloudRegion ≠ some (.string x)) ∧
          (∀ i, m1.lookup AttributeCloudRegion ≠ some (.int i))) →
        (∀ x, m.lookup AttributeCloudRegion = some (.string x) →
          e.attributes.Get AttributeCloudRegion = some (.str x)) ∧
        (∀ i, m.lookup AttributeCloudRegion = some (.int i) →
          e.attributes.Get AttributeCloudRegion = some (.int i))) := by
  obtain ⟨rb1, h1, h2⟩ := AddLogEntry_appends rb hInv itemId timestamp message r attributes
  refine ⟨rb1, _, h1, h2, ?_, ?_⟩
  · intro hmaps
    rw [fillLogEntry_not_written _ _ _ _ _ _ _ hmaps]
    simp [hr]
  · intro pre m post hsplit hpost
    subst hsplit
    exact fillLogEntry_last_wins rb itemId timestamp message r pre post m AttributeCloudRegion
      hpost

/-- Witness for C8 (amended): a new builder, region "us-east-1" and the example map. -/
theorem C8_explicit_region_unless_map_overrides_witness :
    ∃ rb1 e, AddLogEntry NewOtlpRequestBuilder "ev1" 1000 "hello" "us-east-1"
        [exampleAttributes] = some rb1 ∧
      rb1.entries = NewOtlpRequestBuilder.entries ++ [e] ∧
      e.attributes.Get AttributeCloudRegion = some (.str "us-east-1") := by
  obtain ⟨rb1, e, h1, h2, h3, _⟩ := C8_explicit_region_unless_map_overrides
    NewOtlpRequestBuilder Inv_NewOtlpRequestBuilder "ev1" 1000 "hello" "us-east-1"
    [exampleAttributes] (by decide)
  refine ⟨rb1, e, h1, h2, h3 ?_⟩
  intro m hm
  have hme : m = exampleAttributes := by simpa using hm
  have hl : exampleAttributes.lookup AttributeCloudRegion = none := by decide
  subst hme
  simp [hl]

/-! ## Attributes of an entry -/

/-- C9: attribute merge in `AddLogEntry`. For every sequence of attribute maps and every
key `k` other than the cloud-region key, the appended entry has attribute `k` if and only
if some map gives `k` a string or integer value, and its value is then the one given by
the last such map in argument order; a value of any other type is never written and
neither removes nor overwrites the value an earlier map supplied for `k`. -/
theorem C9_attribute_merge (rb : otlpRequestBuilder) (hInv : Inv rb) (itemId : String)
    (timestamp : Int) (message region : String) (attributes : List (GoMap GoValue))
    (k : String) (hk : k ≠ AttributeCloudRegion) :
    ∃ rb1 e, AddLogEntry rb itemId timestamp message region attributes = some rb1 ∧
      rb1.entries = rb.entries ++ [e] ∧
      ((∃ v, e.attributes.Get k = some v) ↔
        ∃ m ∈ attributes, (∃ x, m.lookup k = some (.string x)) ∨
          (∃ i, m.lookup k = some (.int i))) ∧
      (∀ pre m post, attributes = pre ++ m :: post →
        (∀ m1 ∈ post, (∀ x, m1.lookup k ≠ some (.string x)) ∧
          (∀ i, m1.lookup k ≠ some (.int i))) →
        (∀ x, m.lookup k = some (.string x) → e.attributes.Get k = some (.str x)) ∧
        (∀ i, m.lookup k = some (.int i) → e.attributes.Get k = some (.int i))) := by
  obtain ⟨rb1, h1, h2⟩ := AddLogEntry_appends rb hInv itemId timestamp message region attributes
  refine ⟨rb1, _, h1, h2, ?_, ?_⟩
  · rw [← Option.isSome_iff_exists, fillLogEntry_attributes, foldl_written_isSome]
    simp only [hk, if_false, Option.isSome_none, Bool.false_eq_true, false_or]
    constructor
    · rintro ⟨m, hm, hw⟩
      exact ⟨m, hm, (written_isSome_iff _).mp hw⟩
    · rintro ⟨m, hm, hw⟩
      exact ⟨m, hm, (written_isSome_iff _).mpr hw⟩
  · intro pre m post hsplit hpost
    subst hsplit
    exact fillLogEntry_last_wins rb itemId timestamp message region pre post m k hpost

/-- Witness for C9: the example map on a new builder, for the keys "k", "n" and "b". -/
theorem C9_attribute_merge_witness :
    (∃ rb1 e, AddLogEntry NewOtlpRequestBuilder "ev1" 1000 "hello" "" [exampleAttributes] =
        some rb1 ∧ rb1.entries = [e] ∧ e.attributes.Get "k" = some (.str "v")) ∧
    (∃ rb1 e, AddLogEntry NewOtlpRequestBuilder "ev1" 1000 "hello" "" [exampleAttributes] =
        some rb1 ∧ rb1.entries = [e] ∧ e.attributes.Get "n" = some (.int 5)) ∧
    (∃ rb1 e, AddLogEntry NewOtlpRequestBuilder "ev1" 1000 "hello" "" [exampleAttributes] =
        some rb1 ∧ rb1.entries = [e] ∧ ¬ ∃ v, e.attributes.Get "b" = some v) := by
  refine ⟨?_, ?_, ?_⟩
  · obtain ⟨rb1, e, h1, h2, _, h4⟩ := C9_attribute_merge NewOtlpRequestBuilder
      Inv_NewOtlpRequestBuilder "ev1" 1000 "hello" "" [exampleAttributes] "k" (by decide)
    exact ⟨rb1, e, h1, h2, (h4 [] exampleAttributes [] rfl (by simp)).1 "v" (by decide)⟩
  · obtain ⟨rb1, e, h1, h2, _, h4⟩ := C9_attribute_merge NewOtlpRequestBuilder
      Inv_NewOtlpRequestBuilder "ev1" 1000 "hello" "" [exampleAttributes] "n" (by decide)
    exact ⟨rb1, e, h1, h2, (h4 [] exampleAttributes [] rfl (by simp)).2 5 (by decide)⟩
  · obtain ⟨rb1, e, h1, h2, h3, _⟩ := C9_attribute_merge NewOtlpRequestBuilder
      Inv_NewOtlpRequestBuilder "ev1" 1000 "hello" "" [exampleAttributes] "b" (by decide)
    refine ⟨rb1, e, h1, h2, fun hv => ?_⟩
    obtain ⟨m, hm, hw⟩ := h3.mp hv
    have hme : m = exampleAttributes := by simpa using hm
    subst hme
    rcases hw with ⟨x, hx⟩ | ⟨i, hi⟩
    · have hb : exampleAttributes.lookup "b" = some (.bool true) := by decide
      rw [hb] at hx
      cases hx
    · have hb : exampleAttributes.lookup "b" = some (.bool true) := by decide
      rw [hb] at hi
      cases hi

/-! ## Append-only scope -/

theorem Timestamp_of_nonneg (timestamp : Int) (h0 : 0 ≤ timestamp) (h63 : timestamp < 2 ^ 63) :
    (Timestamp timestamp : Int) = timestamp := by
  unfold Timestamp
  have hlt : timestamp < 2 ^ 64 := by omega
  rw [Int.emod_eq_of_lt h0 hlt]
  exact Int.toNat_of_nonneg h0

/-- C10: `AddLogEntry` is append-only into a single scope. For every builder state with
entry list `E` and every call with an `int64` timestamp `ts >= 0`, the call returns and
afterwards the document has exactly one scope, whose entry list is `E` followed by exactly
one new entry with event identifier `itemId`, timestamp `ts` and body `message`; the
resource context, the schema URL, the host id and the parsed host id and region are
unchanged, and the document still holds the one resource. -/
theorem C10_AddLogEntry_append_only (rb : otlpRequestBuilder) (hInv : Inv rb)
    (itemId : String) (timestamp : Int) (message region : String)
    (attributes : List (GoMap GoValue)) (h0 : 0 ≤ timestamp) (h63 : timestamp < 2 ^ 63) :
    ∃ rb1 e, AddLogEntry rb itemId timestamp message region attributes = some rb1 ∧
      rb1.instrLogsSlice = [{ logRecords := rb.entries ++ [e] }] ∧
      rb1.entries = rb.entries ++ [e] ∧
      e.eventName = itemId ∧ (e.timestamp : Int) = timestamp ∧ e.body = .str message ∧
      rb1.attrs = rb.attrs ∧ rb1.resLogs.schemaUrl = rb.resLogs.schemaUrl ∧
      rb1.logs.resourceLogs.length = 1 ∧
      rb1.hostId = rb.hostId ∧ rb1.parsedHostId = rb.parsedHostId ∧
      rb1.parsedRegion = rb.parsedRegion ∧ Inv rb1 := by
  obtain ⟨hn, ht, hb⟩ := fillLogEntry_fields rb itemId timestamp message region attributes
  refine ⟨_, _, AddLogEntry_eq rb hInv itemId timestamp message region attributes, rfl,
    entries_single _ _ _ _ _ _, hn, ?_, hb, rfl, rfl, rfl, rfl, rfl, rfl, Or.inr ⟨rfl, rfl⟩⟩
  rw [ht]
  exact Timestamp_of_nonneg timestamp h0 h63

/-- Witness for C10: the example call of the specification on a new builder. -/
theorem C10_AddLogEntry_append_only_witness :
    ∃ rb1 e, AddLogEntry NewOtlpRequestBuilder "ev1" 1000 "hello" "" [exampleAttributes] =
        some rb1 ∧
      rb1.instrLogsSlice = [{ logRecords := NewOtlpRequestBuilder.entries ++ [e] }] ∧
      e.eventName = "ev1" ∧ (e.timestamp : Int) = 1000 ∧ e.body = .str "hello" := by
  obtain ⟨rb1, e, h1, h2, _, h4, h5, h6, _⟩ := C10_AddLogEntry_append_only
    NewOtlpRequestBuilder Inv_NewOtlpRequestBuilder "ev1" 1000 "hello" "" [exampleAttributes]
    (by decide) (by decide)
  exact ⟨rb1, e, h1, h2, h4, h5, h6⟩

/-! ## Frames of the setters -/

theorem FrameExcept_withAttrs (rb : otlpRequestBuilder) (m : Map) (keys : List String)
    (h : ∀ k, k ∉ keys → Map.Get m k = rb.attrs.Get k) :
    FrameExcept rb (rb.withAttrs m) keys :=
  ⟨h, rfl, rfl, rfl, rfl, rfl, rfl⟩

theorem FrameExcept_PutStr (rb : otlpRequestBuilder) (key v : String) :
    FrameExcept rb (rb.withAttrs (rb.attrs.PutStr key v)) [key] :=
  FrameExcept_withAttrs rb _ _
    (fun k hk => Map.Get_PutStr_other _ _ _ _ (by simpa using hk))

theorem Map.put_put_same (m : Map) (key : String) (v : Value) :
    Map.put (Map.put m key v) key v = Map.put m key v := by
  induction m with
  | nil => simp [Map.put]
  | cons kv rest ih =>
    obtain ⟨k, w⟩ := kv
    by_cases h : k = key
    · simp [Map.put, h]
    · simp [Map.put, h, ih]

/-- C11: for every builder state and every string `h`, after `SetHostId h` with `h`
non-empty the resource context maps the host-id key to `h` and the cloud-platform key to
the AWS EC2 value; after `SetHostId ""` neither key is present; in both cases the host id
field is `h` and every other resource attribute, every log entry (the scopes), the schema
URL and the parsed host id and region are unchanged. -/
theorem C11_SetHostId_pair_and_frame (rb : otlpRequestBuilder) (h : String) :
    (h ≠ "" →
      (SetHostId rb h).attrs.Get AttributeHostID = some (.str h) ∧
      (SetHostId rb h).attrs.Get AttributeCloudPlatform =
        some (.str AttributeCloudPlatformAWSEC2)) ∧
    (h = "" →
      (SetHostId rb h).attrs.Get AttributeHostID = none ∧
      (SetHostId rb h).attrs.Get AttributeCloudPlatform = none) ∧
    (∀ k, k ≠ AttributeHostID → k ≠ AttributeCloudPlatform →
      (SetHostId rb h).attrs.Get k = rb.attrs.Get k) ∧
    (SetHostId rb h).hostId = h ∧
    (SetHostId rb h).resLogs.scopeLogs = rb.resLogs.scopeLogs ∧
    (SetHostId rb h).entries = rb.entries ∧
    (SetHostId rb h).resLogs.schemaUrl = rb.resLogs.schemaUrl ∧
    (SetHostId rb h).instrLogs = rb.instrLogs ∧
    (SetHostId rb h).parsedRegion = rb.parsedRegion ∧
    (SetHostId rb h).parsedHostId = rb.parsedHostId := by
  obtain ⟨f1, f2, f3, f4, f5⟩ := SetHostId_frame rb h
  refine ⟨?_, ?_, ?_, SetHostId_hostId rb h, f1, ?_, f2, f3, f4, f5⟩
  · intro hne
    rw [SetHostId_attrs_of_ne rb h hne]
    exact ⟨by rw [Map.Get_PutStr_other _ _ _ _ (by decide), Map.Get_PutStr_same],
      Map.Get_PutStr_same _ _ _⟩
  · intro he
    subst he
    rw [SetHostId_attrs_of_eq]
    exact ⟨by rw [Map.Get_Remove_other _ _ _ (by decide), Map.Get_Remove_same],
      Map.Get_Remove_same _ _⟩
  · intro k hk1 hk2
    by_cases he : h = ""
    · subst he
      rw [SetHostId_attrs_of_eq, Map.Get_Remove_other _ _ _ hk2, Map.Get_Remove_other _ _ _ hk1]
    · rw [SetHostId_attrs_of_ne rb h he, Map.Get_PutStr_other _ _ _ _ hk2,
        Map.Get_PutStr_other _ _ _ _ hk1]
  · unfold otlpRequestBuilder.entries
    rw [f1]

/-- Witness for C11: `SetHostId "i-1234"` and then `SetHostId ""` on a new builder. -/
theorem C11_SetHostId_pair_and_frame_witness :
    ((SetHostId NewOtlpRequestBuilder "i-1234").attrs.Get AttributeHostID =
        some (.str "i-1234") ∧
      (SetHostId NewOtlpRequestBuilder "i-1234").attrs.Get AttributeCloudPlatform =
        some (.str AttributeCloudPlatformAWSEC2)) ∧
    ((SetHostId (SetHostId NewOtlpRequestBuilder "i-1234") "").attrs.Get AttributeHostID =
        none ∧
      (SetHostId (SetHostId NewOtlpRequestBuilder "i-1234") "").attrs.Get
        AttributeCloudPlatform = none) :=
  ⟨(C11_SetHostId_pair_and_frame NewOtlpRequestBuilder "i-1234").1 (by decide),
    (C11_SetHostId_pair_and_frame (SetHostId NewOtlpRequestBuilder "i-1234") "").2.1 rfl⟩

/-- C12: for every builder state and all strings `h` and `x`, after `SetHostId h`
`HasHostId` returns `h != ""` and `MatchHostId x` returns `x == h`; on a new builder
`HasHostId` is false and `MatchHostId ""` is true. -/
theorem C12_HasHostId_MatchHostId (rb : otlpRequestBuilder) (h x : String) :
    HasHostId (SetHostId rb h) = (h != "") ∧
    MatchHostId (SetHostId rb h) x = (x == h) ∧
    HasHostId NewOtlpRequestBuilder = false ∧
    MatchHostId NewOtlpRequestBuilder "" = true := by
  refine ⟨?_, ?_, rfl, rfl⟩
  · unfold HasHostId
    rw [SetHostId_hostId]
  · unfold MatchHostId
    rw [SetHostId_hostId]
    by_cases hx : x = h
    · simp [hx]
    · have hx2 : ¬ h = x := fun e => hx e.symm
      simp [hx, hx2]

/-- C14: for every builder state, the document returned by `GetLogs` is the document of
the builder, its single resource has the cloud-provider attribute equal to the AWS
provider value, a second call leaves the builder and returns a document identical to the
first call, and `GetLogs` changes nothing but the cloud-provider attribute: every other
resource attribute (the cloud-platform attribute among them), the entries, the host id
and the parsed fields are as before. -/
theorem C14_GetLogs_stamp_idempotent (rb : otlpRequestBuilder) :
    (GetLogs rb).2 = (GetLogs rb).1.logs ∧
    (∃ r, (GetLogs rb).2.resourceLogs = [r] ∧
      r.attributes.Get AttributeCloudProvider = some (.str AttributeCloudProviderAWS)) ∧
    GetLogs (GetLogs rb).1 = GetLogs rb ∧
    FrameExcept rb (GetLogs rb).1 [AttributeCloudProvider] ∧
    (GetLogs rb).1.attrs.Get AttributeCloudPlatform = rb.attrs.Get AttributeCloudPlatform ∧
    (GetLogs rb).1.entries = rb.entries := by
  refine ⟨rfl, ⟨_, rfl, Map.Get_PutStr_same _ _ _⟩, ?_, FrameExcept_PutStr rb _ _,
    Map.Get_PutStr_other _ _ _ _ (by decide), rfl⟩
  simp [GetLogs, otlpRequestBuilder.withAttrs, otlpRequestBuilder.attrs,
    otlpRequestBuilder.logs, Map.PutStr, Map.put_put_same]

/-- C15: for every builder state and all strings `v` and `d`, after
`SetKubernetesManifestVersion v d` the manifest-version key is present with value `v` if
`v` is non-empty and `d` otherwise; with both empty its value is the empty string. -/
theorem C15_manifest_version (rb : otlpRequestBuilder) (v d : String) :
    (SetKubernetesManifestVersion rb v d).attrs.Get "sw.k8s.agent.manifest.version" =
      some (.str (if v ≠ "" then v else d)) ∧
    (SetKubernetesManifestVersion rb v d).attrs.Get "sw.k8s.agent.manifest.version" ≠ none ∧
    (SetKubernetesManifestVersion rb "" "").attrs.Get "sw.k8s.agent.manifest.version" =
      some (.str "") := by
  have h1 : (SetKubernetesManifestVersion rb v d).attrs.Get "sw.k8s.agent.manifest.version" =
      some (.str (if v ≠ "" then v else d)) := by
    unfold SetKubernetesManifestVersion
    rw [attrs_withAttrs, Map.Get_PutStr_same]
    by_cases hv : v = "" <;> simp [hv]
  refine ⟨h1, ?_, ?_⟩
  · rw [h1]
    simp
  · unfold SetKubernetesManifestVersion
    rw [attrs_withAttrs, Map.Get_PutStr_same]
    rfl

/-- C20: single-key setters have no side effects. For every builder state and argument,
each of the ten setters sets its own fixed resource key to the supplied value, whatever
was there before, and leaves every other resource attribute, the host id, the parsed host
id and region and all log entries unchanged; `SetOtelAttributes p c` likewise changes only
`host.name` (to `p`) and `service.name` (to `c`). -/
theorem C20_single_key_setters (rb : otlpRequestBuilder) (v p c : String) :
    ((SetCloudAccount rb v).attrs.Get AttributeCloudAccountID = some (.str v) ∧
      FrameExcept rb (SetCloudAccount rb v) [AttributeCloudAccountID]) ∧
    ((SetLogGroup rb v).attrs.Get AttributeAWSLogGroupNames = some (.str v) ∧
      FrameExcept rb (SetLogGroup rb v) [AttributeAWSLogGroupNames]) ∧
    ((SetKubernetesPodName rb v).attrs.Get AttributeK8SPodName = some (.str v) ∧
      FrameExcept rb (SetKubernetesPodName rb v) [AttributeK8SPodName]) ∧
    ((SetKubernetesNamespaceName rb v).attrs.Get AttributeK8SNamespaceName = some (.str v) ∧
      FrameExcept rb (SetKubernetesNamespaceName rb v) [AttributeK8SNamespaceName]) ∧
    ((SetKubernetesClusterUid rb v).attrs.Get "sw.k8s.cluster.uid" = some (.str v) ∧
      FrameExcept rb (SetKubernetesClusterUid rb v) ["sw.k8s.cluster.uid"]) ∧
    ((SetKubernetesContainerName rb v).attrs.Get AttributeK8SContainerName = some (.str v) ∧
      FrameExcept rb (SetKubernetesContainerName rb v) [AttributeK8SContainerName]) ∧
    ((SetKubernetesContainerImage rb v).attrs.Get "k8s.container.image.name" = some (.str v) ∧
      FrameExcept rb (SetKubernetesContainerImage rb v) ["k8s.container.image.name"]) ∧
    ((SetKubernetesPodUID rb v).attrs.Get AttributeK8SPodUID = some (.str v) ∧
      FrameExcept rb (SetKubernetesPodUID rb v) [AttributeK8SPodUID]) ∧
    ((SetKubernetesContainerId rb v).attrs.Get AttributeContainerID = some (.str v) ∧
      FrameExcept rb (SetKubernetesContainerId rb v) [AttributeContainerID]) ∧
    ((SetKubernetesNodeName rb v).attrs.Get AttributeK8SNodeName = some (.str v) ∧
      FrameExcept rb (SetKubernetesNodeName rb v) [AttributeK8SNodeName]) ∧
    ((SetOtelAttributes rb p c).attrs.Get "host.name" = some (.str p) ∧
      (SetOtelAttributes rb p c).attrs.Get "service.name" = some (.str c) ∧
      FrameExcept rb (SetOtelAttributes rb p c) ["host.name", "service.name"]) := by
  refine ⟨⟨Map.Get_PutStr_same _ _ _, FrameExcept_PutStr rb _ _⟩,
    ⟨Map.Get_PutStr_same _ _ _, FrameExcept_PutStr rb _ _⟩,
    ⟨Map.Get_PutStr_same _ _ _, FrameExcept_PutStr rb _ _⟩,
    ⟨Map.Get_PutStr_same _ _ _, FrameExcept_PutStr rb _ _⟩,
    ⟨Map.Get_PutStr_same _ _ _, FrameExcept_PutStr rb _ _⟩,
    ⟨Map.Get_PutStr_same _ _ _, FrameExcept_PutStr rb _ _⟩,
    ⟨Map.Get_PutStr_same _ _ _, FrameExcept_PutStr rb _ _⟩,
    ⟨Map.Get_PutStr_same _ _ _, FrameExcept_PutStr rb _ _⟩,
    ⟨Map.Get_PutStr_same _ _ _, FrameExcept_PutStr rb _ _⟩,
    ⟨Map.Get_PutStr_same _ _ _, FrameExcept_PutStr rb _ _⟩, ?_, Map.Get_PutStr_same _ _ _, ?_⟩
  · show Map.Get (Map.PutStr (Map.PutStr rb.attrs "host.name" p) "service.name" c) "host.name" =
      some (.str p)
    rw [Map.Get_PutStr_other _ _ _ _ (by decide), Map.Get_PutStr_same]
  · refine FrameExcept_withAttrs rb _ _ (fun k hk => ?_)
    have h1 : k ≠ "host.name" := fun e => hk (by simp [e])
    have h2 : k ≠ "service.name" := fun e => hk (by simp [e])
    rw [Map.Get_PutStr_other _ _ _ _ h2, Map.Get_PutStr_other _ _ _ _ h1]

/-! ## Presence of the container identity -/

theorem IdentitySetter.key_injective (a b : IdentitySetter) (h : a.key = b.key) : a = b := by
  cases a <;> cases b <;> first | rfl | exact absurd h (by decide)

theorem Get_callIdentitySetters (missing : IdentitySetter)
    (calls : List (IdentitySetter × String)) (rb : otlpRequestBuilder)
    (h : ∀ c ∈ calls, c.1 ≠ missing) :
    (callIdentitySetters rb calls).attrs.Get missing.key = rb.attrs.Get missing.key := by
  induction calls generalizing rb with
  | nil => rfl
  | cons c rest ih =>
    unfold callIdentitySetters at ih ⊢
    rw [List.foldl_cons, ih _ (fun c1 hc1 => h c1 (List.mem_cons_of_mem _ hc1))]
    have hne : missing.key ≠ c.1.key := fun e =>
      h c (List.mem_cons_self _ _) (IdentitySetter.key_injective _ _ e.symm)
    obtain ⟨f, v⟩ := c
    cases f <;> exact Map.Get_PutStr_other _ _ _ _ hne

theorem HasContainerName_iff (rb : otlpRequestBuilder) :
    HasContainerName rb = true ↔
      (∃ v, rb.attrs.Get "sw.k8s.cluster.uid" = some v) ∧
      (∃ v, rb.attrs.Get AttributeK8SNamespaceName = some v) ∧
      (∃ v, rb.attrs.Get AttributeK8SPodUID = some v) ∧
      (∃ v, rb.attrs.Get AttributeK8SContainerName = some v) := by
  unfold HasContainerName
  cases rb.attrs.Get "sw.k8s.cluster.uid" <;>
    cases rb.attrs.Get AttributeK8SNamespaceName <;>
    cases rb.attrs.Get AttributeK8SPodUID <;>
    cases rb.attrs.Get AttributeK8SContainerName <;>
    simp

theorem absent_identity_key (rb : otlpRequestBuilder) (missing : IdentitySetter)
    (h : rb.attrs.Get missing.key = none) :
    HasContainerName rb = false ∧ ∀ a b c d, MatchContainerName rb a b c d = false := by
  constructor
  · cases hh : HasContainerName rb
    · rfl
    · obtain ⟨⟨v1, h1⟩, ⟨v2, h2⟩, ⟨v3, h3⟩, ⟨v4, h4⟩⟩ := (HasContainerName_iff rb).mp hh
      cases missing
      · rw [show IdentitySetter.clusterUid.key = "sw.k8s.cluster.uid" from rfl, h1] at h
        cases h
      · rw [show IdentitySetter.namespaceName.key = AttributeK8SNamespaceName from rfl, h2] at h
        cases h
      · rw [show IdentitySetter.podUID.key = AttributeK8SPodUID from rfl, h3] at h
        cases h
      · rw [show IdentitySetter.containerName.key = AttributeK8SContainerName from rfl, h4] at h
        cases h
  · intro a b c d
    unfold MatchContainerName
    cases missing
    · rw [show rb.attrs.Get "sw.k8s.cluster.uid" = none from h]
      split <;> simp_all
    · rw [show rb.attrs.Get AttributeK8SNamespaceName = none from h]
      split <;> simp_all
    · rw [show rb.attrs.Get AttributeK8SPodUID = none from h]
      split <;> simp_all
    · rw [show rb.attrs.Get AttributeK8SContainerName = none from h]

/-- C13: for every builder state `HasContainerName` is true if and only if all four of
the cluster-uid, namespace-name, pod-UID and container-name attributes are present,
whatever their values (the four setters with empty strings make it true); and on a new
builder every sequence of calls of the identity setters that leaves one of the four out,
in particular the other three once each in any order, leaves `HasContainerName` false and
`MatchContainerName` false for all arguments. -/
theorem C13_HasContainerName_iff_all_four :
    (∀ rb : otlpRequestBuilder,
      (HasContainerName rb = true ↔
        (∃ v, rb.attrs.Get "sw.k8s.cluster.uid" = some v) ∧
        (∃ v, rb.attrs.Get AttributeK8SNamespaceName = some v) ∧
        (∃ v, rb.attrs.Get AttributeK8SPodUID = some v) ∧
        (∃ v, rb.attrs.Get AttributeK8SContainerName = some v))) ∧
    HasContainerName (callIdentitySetters NewOtlpRequestBuilder
      [(.clusterUid, ""), (.namespaceName, ""), (.podUID, ""), (.containerName, "")]) = true ∧
    (∀ (missing : IdentitySetter) (calls : List (IdentitySetter × String)),
      (∀ c ∈ calls, c.1 ≠ missing) →
      HasContainerName (callIdentitySetters NewOtlpRequestBuilder calls) = false ∧
      ∀ a b c d,
        MatchContainerName (callIdentitySetters NewOtlpRequestBuilder calls) a b c d = false) := by
  refine ⟨HasContainerName_iff, by decide, ?_⟩
  intro missing calls h
  apply absent_identity_key _ missing
  rw [Get_callIdentitySetters missing calls _ h]
  cases missing <;> rfl

/-- Witness for C13: cluster uid, namespace and pod UID set, container name left out. -/
theorem C13_HasContainerName_iff_all_four_witness :
    HasContainerName (callIdentitySetters NewOtlpRequestBuilder
      [(.clusterUid, "c1"), (.namespaceName, "ns"), (.podUID, "p1")]) = false ∧
    ∀ a b c d, MatchContainerName (callIdentitySetters NewOtlpRequestBuilder
      [(.clusterUid, "c1"), (.namespaceName, "ns"), (.podUID, "p1")]) a b c d = false :=
  C13_HasContainerName_iff_all_four.2.2 .containerName
    [(.clusterUid, "c1"), (.namespaceName, "ns"), (.podUID, "p1")] (by decide)

/-! ## Pod labels and annotations -/

theorem append_left_cancel (pre a b : String) (h : pre ++ a = pre ++ b) : a = b := by
  have hd := congrArg String.data h
  rw [String.data_append, String.data_append] at hd
  exact String.ext (List.append_cancel_left hd)

theorem ne_append_of_take_ne (pre k key : String)
    (h : key.data.take pre.data.length ≠ pre.data) : key ≠ pre ++ k := by
  intro e
  apply h
  rw [e, String.data_append, List.take_left]

theorem Get_foldl_prefixed_other (pre : String) (l : List (String × String)) (a : Map)
    (key : String) (h : ∀ kv ∈ l, key ≠ pre ++ kv.1) :
    Map.Get (l.foldl (fun attrs kv => attrs.PutStr (pre ++ kv.1) kv.2) a) key =
      Map.Get a key := by
  induction l generalizing a with
  | nil => rfl
  | cons kv rest ih =>
    rw [List.foldl_cons, ih _ (fun kv1 h1 => h kv1 (List.mem_cons_of_mem _ h1)),
      Map.Get_PutStr_other _ _ _ _ (h kv (List.mem_cons_self _ _))]

theorem Get_foldl_prefixed_same (pre : String) (l : List (String × String))
    (hl : (l.map Prod.fst).Nodup) (a : Map) (k v : String) (hm : (k, v) ∈ l) :
    Map.Get (l.foldl (fun attrs kv => attrs.PutStr (pre ++ kv.1) kv.2) a) (pre ++ k) =
      some (.str v) := by
  induction l generalizing a with
  | nil => cases hm
  | cons kv rest ih =>
    have hnd : (rest.map Prod.fst).Nodup := (List.nodup_cons.mp hl).2
    have hnotin : kv.1 ∉ rest.map Prod.fst := (List.nodup_cons.mp hl).1
    rw [List.foldl_cons]
    rcases List.mem_cons.mp hm with he | hin
    · subst he
      rw [Get_foldl_prefixed_other pre rest _ _ ?_, Map.Get_PutStr_same]
      intro kv1 h1 e
      apply hnotin
      have hk : k = kv1.1 := append_left_cancel pre _ _ e
      have hmem : kv1.1 ∈ rest.map Prod.fst := List.mem_map_of_mem Prod.fst h1
      rw [← hk] at hmem
      exact hmem
    · exact ih hnd _ hin

theorem identity_predicates_congr (rb rb1 : otlpRequestBuilder)
    (h : ∀ key ∈ reservedKeys, rb1.attrs.Get key = rb.attrs.Get key) :
    HasContainerName rb1 = HasContainerName rb ∧
    ∀ a b c d, MatchContainerName rb1 a b c d = MatchContainerName rb a b c d := by
  have h1 : rb1.attrs.Get "sw.k8s.cluster.uid" = rb.attrs.Get "sw.k8s.cluster.uid" :=
    h _ (by decide)
  have h2 : rb1.attrs.Get AttributeK8SNamespaceName = rb.attrs.Get AttributeK8SNamespaceName :=
    h _ (by decide)
  have h3 : rb1.attrs.Get AttributeK8SPodUID = rb.attrs.Get AttributeK8SPodUID :=
    h _ (by decide)
  have h4 : rb1.attrs.Get AttributeK8SContainerName = rb.attrs.Get AttributeK8SContainerName :=
    h _ (by decide)
  constructor
  · unfold HasContainerName
    rw [h1, h2, h3, h4]
  · intro a b c d
    unfold MatchContainerName
    rw [h1, h2, h3, h4]

/-- What a setter does that writes every entry of `L` under the key prefix `pre`. -/
theorem prefixed_setter (pre : String) (L : GoMap String) (rb : otlpRequestBuilder)
    (hpre : ∀ key ∈ reservedKeys, key.data.take pre.data.length ≠ pre.data) :
    (∀ k v, (k, v) ∈ L.entries →
      (rb.withAttrs (L.entries.foldl (fun attrs kv => attrs.PutStr (pre ++ kv.1) kv.2)
        rb.attrs)).attrs.Get (pre ++ k) = some (.str v)) ∧
    FrameExcept rb
      (rb.withAttrs (L.entries.foldl (fun attrs kv => attrs.PutStr (pre ++ kv.1) kv.2)
        rb.attrs)) (L.entries.map (fun kv => pre ++ kv.1)) ∧
    (∀ key ∈ reservedKeys,
      (rb.withAttrs (L.entries.foldl (fun attrs kv => attrs.PutStr (pre ++ kv.1) kv.2)
        rb.attrs)).attrs.Get key = rb.attrs.Get key) := by
  refine ⟨fun k v hm => Get_foldl_prefixed_same pre L.entries L.nodup _ k v hm, ?_, ?_⟩
  · refine FrameExcept_withAttrs rb _ _ (fun key hk => ?_)
    refine Get_foldl_prefixed_other pre L.entries _ key (fun kv hkv e => hk ?_)
    rw [e]
    exact List.mem_map_of_mem (fun kv => pre ++ kv.1) hkv
  · intro key hkey
    exact Get_foldl_prefixed_other pre L.entries _ key
      (fun kv _ => ne_append_of_take_ne pre kv.1 key (hpre key hkey))

/-- C16: for every builder state and every string-to-string map `L`, after
`SetKubernetesPodLabels L` the resource context maps the key "k8s.pod.labels." ++ k to v
for every entry (k, v) of `L`, with k used verbatim, and every resource key that is not
of this form for a key of `L` keeps its presence and value, as do the entries, the host
id and the parsed fields; the same holds for `SetKubernetesPodAnnotations` with the prefix
"k8s.pod.annotations.". Hence no label or annotation key changes the host-id, cloud or
container-identity attributes or the results of `HasHostId`, `MatchHostId`,
`HasContainerName` and `MatchContainerName`. -/
theorem C16_labels_and_annotations (rb : otlpRequestBuilder) (L : GoMap String) :
    ((∀ k v, (k, v) ∈ L.entries →
        (SetKubernetesPodLabels rb L).attrs.Get ("k8s.pod.labels." ++ k) = some (.str v)) ∧
      FrameExcept rb (SetKubernetesPodLabels rb L)
        (L.entries.map (fun kv => "k8s.pod.labels." ++ kv.1)) ∧
      (∀ key ∈ reservedKeys,
        (SetKubernetesPodLabels rb L).attrs.Get key = rb.attrs.Get key) ∧
      HasHostId (SetKubernetesPodLabels rb L) = HasHostId rb ∧
      (∀ x, MatchHostId (SetKubernetesPodLabels rb L) x = MatchHostId rb x) ∧
      HasContainerName (SetKubernetesPodLabels rb L) = HasContainerName rb ∧
      (∀ a b c d, MatchContainerName (SetKubernetesPodLabels rb L) a b c d =
        MatchContainerName rb a b c d)) ∧
    ((∀ k v, (k, v) ∈ L.entries →
        (SetKubernetesPodAnnotations rb L).attrs.Get ("k8s.pod.annotations." ++ k) =
          some (.str v)) ∧
      FrameExcept rb (SetKubernetesPodAnnotations rb L)
        (L.entries.map (fun kv => "k8s.pod.annotations." ++ kv.1)) ∧
      (∀ key ∈ reservedKeys,
        (SetKubernetesPodAnnotations rb L).attrs.Get key = rb.attrs.Get key) ∧
      HasHostId (SetKubernetesPodAnnotations rb L) = HasHostId rb ∧
      (∀ x, MatchHostId (SetKubernetesPodAnnotations rb L) x = MatchHostId rb x) ∧
      HasContainerName (SetKubernetesPodAnnotations rb L) = HasContainerName rb ∧
      (∀ a b c d, MatchContainerName (SetKubernetesPodAnnotations rb L) a b c d =
        MatchContainerName rb a b c d)) := by
  obtain ⟨l1, l2, l3⟩ := prefixed_setter "k8s.pod.labels." L rb (by decide)
  obtain ⟨a1, a2, a3⟩ := prefixed_setter "k8s.pod.annotations." L rb (by decide)
  exact ⟨⟨l1, l2, l3, rfl, fun _ => rfl, (identity_predicates_congr rb _ l3).1,
      (identity_predicates_congr rb _ l3).2⟩,
    ⟨a1, a2, a3, rfl, fun _ => rfl, (identity_predicates_congr rb _ a3).1,
      (identity_predicates_congr rb _ a3).2⟩⟩

/-- Witness for C16: labels "app" and "host.id" on a new builder; the label named
"host.id" is written under the prefix and the host-id attribute stays absent. -/
theorem C16_labels_and_annotations_witness :
    (SetKubernetesPodLabels NewOtlpRequestBuilder exampleLabels).attrs.Get
      ("k8s.pod.labels." ++ "host.id") = some (.str "x") ∧
    (SetKubernetesPodLabels NewOtlpRequestBuilder exampleLabels).attrs.Get AttributeHostID =
      NewOtlpRequestBuilder.attrs.Get AttributeHostID :=
  ⟨(C16_labels_and_annotations NewOtlpRequestBuilder exampleLabels).1.1 "host.id" "x"
      (by decide),
    (C16_labels_and_annotations NewOtlpRequestBuilder exampleLabels).1.2.2.1 AttributeHostID
      (by decide)⟩

/-! ## Reachable states -/

theorem HostPair_of_gets (rb rb1 : otlpRequestBuilder) (hid : rb1.hostId = rb.hostId)
    (h1 : rb1.attrs.Get AttributeHostID = rb.attrs.Get AttributeHostID)
    (h2 : rb1.attrs.Get AttributeCloudPlatform = rb.attrs.Get AttributeCloudPlatform)
    (h : HostPair rb) : HostPair rb1 := by
  unfold HostPair at *
  rw [h1, h2, hid]
  exact h

theorem HostPair_of_frame (rb rb1 : otlpRequestBuilder) (keys : List String)
    (hf : FrameExcept rb rb1 keys) (hk1 : AttributeHostID ∉ keys)
    (hk2 : AttributeCloudPlatform ∉ keys) (h : HostPair rb) : HostPair rb1 :=
  HostPair_of_gets rb rb1 hf.2.2.2.2.1 (hf.1 _ hk1) (hf.1 _ hk2) h

theorem HostPair_PutStr (rb : otlpRequestBuilder) (key v : String)
    (hk1 : AttributeHostID ≠ key) (hk2 : AttributeCloudPlatform ≠ key) (h : HostPair rb) :
    HostPair (rb.withAttrs (rb.attrs.PutStr key v)) :=
  HostPair_of_frame rb _ [key] (FrameExcept_PutStr rb key v) (by simpa using hk1)
    (by simpa using hk2) h

theorem HostPair_SetHostId (rb : otlpRequestBuilder) (h : String) : HostPair (SetHostId rb h) := by
  unfold HostPair
  rw [SetHostId_hostId]
  by_cases he : h = ""
  · subst he
    rw [SetHostId_attrs_of_eq]
    exact ⟨by rw [Map.Get_Remove_other _ _ _ (by decide), Map.Get_Remove_same]; rfl,
      by rw [Map.Get_Remove_same]; rfl⟩
  · rw [SetHostId_attrs_of_ne rb h he, if_neg he, if_neg he]
    exact ⟨by rw [Map.Get_PutStr_other _ _ _ _ (by decide), Map.Get_PutStr_same],
      Map.Get_PutStr_same _ _ _⟩

theorem HostPair_SetLogStream (rb : otlpRequestBuilder) (s : String) (h : HostPair rb) :
    HostPair (SetLogStream rb s) := by
  rw [SetLogStream_eq]
  split
  · exact HostPair_SetHostId _ s
  · exact HostPair_of_gets rb _ rfl (Map.Get_PutStr_other _ _ _ _ (by decide))
      (Map.Get_PutStr_other _ _ _ _ (by decide)) h

theorem Inv_withAttrs (rb : otlpRequestBuilder) (m : Map) (h : Inv rb) : Inv (rb.withAttrs m) :=
  Inv_of_frame rb _ rfl rfl h

/-- Every call of the interface keeps the struct invariant and the host pair. -/
theorem step_invariant (op : Op) (rb rb1 : otlpRequestBuilder) (hrun : op.run rb = some rb1)
    (hInv : Inv rb) (hPair : HostPair rb) : Inv rb1 ∧ HostPair rb1 := by
  cases op with
  | addLogEntry i t m r a =>
    have h := AddLogEntry_eq rb hInv i t m r a
    simp only [Op.run] at hrun
    rw [h] at hrun
    cases hrun
    exact ⟨Or.inr ⟨rfl, rfl⟩, HostPair_of_gets rb _ rfl rfl rfl hPair⟩
  | setHostId h =>
    cases hrun
    exact ⟨Inv_SetHostId rb h hInv, HostPair_SetHostId rb h⟩
  | setLogStream s =>
    cases hrun
    exact ⟨Inv_SetLogStream rb s hInv, HostPair_SetLogStream rb s hPair⟩
  | setKubernetesPodLabels l =>
    cases hrun
    have h3 := (prefixed_setter "k8s.pod.labels." l rb (by decide)).2.2
    exact ⟨Inv_withAttrs rb _ hInv,
      HostPair_of_gets rb _ rfl (h3 _ (by decide)) (h3 _ (by decide)) hPair⟩
  | setKubernetesPodAnnotations l =>
    cases hrun
    have h3 := (prefixed_setter "k8s.pod.annotations." l rb (by decide)).2.2
    exact ⟨Inv_withAttrs rb _ hInv,
      HostPair_of_gets rb _ rfl (h3 _ (by decide)) (h3 _ (by decide)) hPair⟩
  | setOtelAttributes p c =>
    cases hrun
    exact ⟨Inv_withAttrs rb _ hInv,
      HostPair_of_gets rb _ rfl
        (by
          show Map.Get (Map.PutStr (Map.PutStr rb.attrs "host.name" p) "service.name" c)
            AttributeHostID = _
          rw [Map.Get_PutStr_other _ _ _ _ (by decide), Map.Get_PutStr_other _ _ _ _ (by decide)])
        (by
          show Map.Get (Map.PutStr (Map.PutStr rb.attrs "host.name" p) "service.name" c)
            AttributeCloudPlatform = _
          rw [Map.Get_PutStr_other _ _ _ _ (by decide), Map.Get_PutStr_other _ _ _ _ (by decide)])
        hPair⟩
  | matchHostId _ => cases hrun; exact ⟨hInv, hPair⟩
  | hasHostId => cases hrun; exact ⟨hInv, hPair⟩
  | hasContainerName => cases hrun; exact ⟨hInv, hPair⟩
  | matchContainerName _ _ _ _ => cases hrun; exact ⟨hInv, hPair⟩
  | getLogs =>
    cases hrun
    exact ⟨Inv_withAttrs rb _ hInv, HostPair_PutStr rb _ _ (by decide) (by decide) hPair⟩
  | setCloudAccount v =>
    cases hrun
    exact ⟨Inv_withAttrs rb _ hInv, HostPair_PutStr rb _ _ (by decide) (by decide) hPair⟩
  | setLogGroup v =>
    cases hrun
    exact ⟨Inv_withAttrs rb _ hInv, HostPair_PutStr rb _ _ (by decide) (by decide) hPair⟩
  | setKubernetesPodName v =>
    cases hrun
    exact ⟨Inv_withAttrs rb _ hInv, HostPair_PutStr rb _ _ (by decide) (by decide) hPair⟩
  | setKubernetesNamespaceName v =>
    cases hrun
    exact ⟨Inv_withAttrs rb _ hInv, HostPair_PutStr rb _ _ (by decide) (by decide) hPair⟩
  | setKubernetesClusterUid v =>
    cases hrun
    exact ⟨Inv_withAttrs rb _ hInv, HostPair_PutStr rb _ _ (by decide) (by decide) hPair⟩
  | setKubernetesContainerName v =>
    cases hrun
    exact ⟨Inv_withAttrs rb _ hInv, HostPair_PutStr rb _ _ (by decide) (by decide) hPair⟩
  | setKubernetesContainerImage v =>
    cases hrun
    exact ⟨Inv_withAttrs rb _ hInv, HostPair_PutStr rb _ _ (by decide) (by decide) hPair⟩
  | setKubernetesPodUID v =>
    cases hrun
    exact ⟨Inv_withAttrs rb _ hInv, HostPair_PutStr rb _ _ (by decide) (by decide) hPair⟩
  | setKubernetesContainerId v =>
    cases hrun
    exact ⟨Inv_withAttrs rb _ hInv, HostPair_PutStr rb _ _ (by decide) (by decide) hPair⟩
  | setKubernetesNodeName v =>
    cases hrun
    exact ⟨Inv_withAttrs rb _ hInv, HostPair_PutStr rb _ _ (by decide) (by decide) hPair⟩
  | setKubernetesManifestVersion v d =>
    cases hrun
    exact ⟨Inv_withAttrs rb _ hInv, HostPair_PutStr rb _ _ (by decide) (by decide) hPair⟩

theorem Reachable_invariant (rb : otlpRequestBuilder) (h : Reachable rb) :
    Inv rb ∧ HostPair rb := by
  induction h with
  | init => exact ⟨Inv_NewOtlpRequestBuilder, rfl, rfl⟩
  | step op _ next ih => exact step_invariant op _ _ next ih.1 ih.2

/-- In a reachable state every call of the interface returns. -/
theorem Reachable_progress (rb : otlpRequestBuilder) (h : Reachable rb) (op : Op) :
    ∃ rb1, op.run rb = some rb1 := by
  cases op with
  | addLogEntry i t m r a =>
    exact ⟨_, AddLogEntry_eq rb (Reachable_invariant rb h).1 i t m r a⟩
  | _ => exact ⟨_, rfl⟩

/-- C19: host-id/cloud-platform pair invariant. In every builder state reachable from
`NewOtlpRequestBuilder` by any sequence of calls of the interface with any arguments, the
host-id resource attribute is present if and only if the cloud-platform attribute is
present, if and only if the host id of the builder is non-empty (`HasHostId`); when
present, the host-id attribute holds the host id field, which is the value `MatchHostId`
compares against, and the cloud-platform attribute holds the AWS EC2 value. -/
theorem C19_host_pair_invariant (rb : otlpRequestBuilder) (h : Reachable rb) :
    ((∃ v, rb.attrs.Get AttributeHostID = some v) ↔
      (∃ v, rb.attrs.Get AttributeCloudPlatform = some v)) ∧
    ((∃ v, rb.attrs.Get AttributeCloudPlatform = some v) ↔ HasHostId rb = true) ∧
    (HasHostId rb = true →
      rb.attrs.Get AttributeHostID = some (.str rb.hostId) ∧
      (∀ x, MatchHostId rb x = true ↔ rb.attrs.Get AttributeHostID = some (.str x)) ∧
      rb.attrs.Get AttributeCloudPlatform = some (.str AttributeCloudPlatformAWSEC2)) := by
  obtain ⟨h1, h2⟩ := (Reachable_invariant rb h).2
  by_cases he : rb.hostId = ""
  · rw [if_pos he] at h1 h2
    simp [h1, h2, HasHostId, he]
  · rw [if_neg he] at h1 h2
    simp [h1, h2, HasHostId, MatchHostId, he]

/-- Witness for C19: the state after `SetLogStream "i-abc123"`, `SetKubernetesPodLabels`
with a label named "host.id", and `SetHostId ""` is reachable. -/
theorem C19_host_pair_invariant_witness :
    ((∃ v, (SetHostId (SetKubernetesPodLabels (SetLogStream NewOtlpRequestBuilder "i-abc123")
        exampleLabels) "").attrs.Get AttributeHostID = some v) ↔
      (∃ v, (SetHostId (SetKubernetesPodLabels (SetLogStream NewOtlpRequestBuilder "i-abc123")
        exampleLabels) "").attrs.Get AttributeCloudPlatform = some v)) ∧
    ((∃ v, (SetHostId (SetKubernetesPodLabels (SetLogStream NewOtlpRequestBuilder "i-abc123")
        exampleLabels) "").attrs.Get AttributeCloudPlatform = some v) ↔
      HasHostId (SetHostId (SetKubernetesPodLabels (SetLogStream NewOtlpRequestBuilder
        "i-abc123") exampleLabels) "") = true) :=
  ⟨(C19_host_pair_invariant _
      (.step (.setHostId "")
        (.step (.setKubernetesPodLabels exampleLabels)
          (.step (.setLogStream "i-abc123") .init rfl) rfl) rfl)).1,
    (C19_host_pair_invariant _
      (.step (.setHostId "")
        (.step (.setKubernetesPodLabels exampleLabels)
          (.step (.setLogStream "i-abc123") .init rfl) rfl) rfl)).2.1⟩

/-! ## Host-id extraction -/

theorem plusK_some {R : Type} (p : Char → Bool) (s : List Char) (f : List Char → R) :
    plusK p s (fun r => some (f r)) =
      if s.takeWhile p = [] then none else some (f (s.dropWhile p)) := by
  induction s with
  | nil => simp [plusK]
  | cons c cs ih =>
    by_cases hc : p c = true
    · simp only [plusK, hc, if_true, ih, List.takeWhile_cons, List.dropWhile_cons]
      by_cases ht : cs.takeWhile p = []
      · have hd : cs.dropWhile p = cs := by
          have := List.takeWhile_append_dropWhile p cs
          rw [ht] at this
          simpa using this
        simp [ht, hd]
      · simp [ht]
    · simp [plusK, hc, List.takeWhile_cons]

theorem take_sub_dropWhile (p : Char → Bool) (pre l : List Char) :
    (pre ++ l).take ((pre ++ l).length - (l.dropWhile p).length) = pre ++ l.takeWhile p := by
  have h := List.takeWhile_append_dropWhile p l
  have hlen : l.length = (l.takeWhile p).length + (l.dropWhile p).length := by
    have := congrArg List.length h
    simp only [List.length_append] at this
    omega
  have e : (pre ++ l).length - (l.dropWhile p).length = (pre ++ l.takeWhile p).length := by
    simp only [List.length_append]
    omega
  rw [e]
  have h2 : pre ++ l = (pre ++ l.takeWhile p) ++ l.dropWhile p := by
    rw [List.append_assoc, h]
  conv_lhs => rw [h2]
  exact List.take_left _ _

theorem cls_matchK {R : Type} (p : Char → Bool) (s : List Char) (caps : Captures)
    (k : List Char → Captures → Option R) :
    (Regex.cls p).matchK s caps k =
      match s with
      | [] => none
      | c :: cs => if p c then k cs caps else none := by
  cases s <;> rfl

theorem captureText_setCapture (caps : Captures) (i : Nat) (t : List Char) :
    captureText (setCapture caps i t) i = String.mk t := by
  simp [captureText, setCapture]

theorem take_sub_dropWhile2 (p : Char → Bool) (c1 c2 : Char) (l : List Char) :
    (c1 :: c2 :: l).take ((c1 :: c2 :: l).length - (l.dropWhile p).length) =
      c1 :: c2 :: l.takeWhile p :=
  take_sub_dropWhile p [c1, c2] l

theorem take_sub_dropWhile3 (p : Char → Bool) (c1 c2 c3 : Char) (l : List Char) :
    (c1 :: c2 :: c3 :: l).take ((c1 :: c2 :: c3 :: l).length - (l.dropWhile p).length) =
      c1 :: c2 :: c3 :: l.takeWhile p :=
  take_sub_dropWhile p [c1, c2, c3] l

theorem hostId_capture (s : List Char) :
    (detectHostIdRegExp.re.matchHere s).map (fun m => captureText m.2 1) =
      (hostIdToken s).map String.mk := by
  unfold Regex.matchHere detectHostIdRegExp
  simp only [Regex.matchK, Regex.chr, cls_matchK, plusK_some, captureText_setCapture]
  rcases s with _ | ⟨c1, _ | ⟨c2, rest⟩⟩
  · rfl
  · by_cases h1 : c1 = 'i' <;> simp [hostIdToken, h1]
  · simp only [hostIdToken, take_sub_dropWhile2, beq_iff_eq]
    by_cases h1 : c1 = 'i'
    · by_cases h2 : c2 = '-'
      · subst h1 h2
        have hne : ¬ ('-' = 'p') := by decide
        by_cases ht : rest.takeWhile isWordOrHyphen = []
        · simp only [ht, if_true, and_self, if_neg hne]
          rfl
        · simp only [ht, if_true, if_false, and_self, Option.map_some', captureText_setCapture]
      · by_cases h3 : c2 = 'p'
        · subst h1 h3
          rcases rest with _ | ⟨c3, rest3⟩
          · simp
          · by_cases h4 : c3 = '-'
            · subst h4
              by_cases ht : rest3.takeWhile isWordOrHyphen = []
              · simp [ht]
              · have t3 : List.take
                    (rest3.length + 1 + 1 + 1 - (List.dropWhile isWordOrHyphen rest3).length)
                    ('i' :: 'p' :: '-' :: rest3) =
                    'i' :: 'p' :: '-' :: rest3.takeWhile isWordOrHyphen :=
                  take_sub_dropWhile3 isWordOrHyphen 'i' 'p' '-' rest3
                simp [ht, t3, captureText_setCapture]
            · simp [h4]
        · simp [h1, h2, h3]
    · simp [h1]

theorem parsedHostIdOf_eq (s : String) :
    parsedHostIdOf s = (hostIdToken s.data).map String.mk := by
  rw [← hostId_capture]
  have hidx : detectHostIdRegExp.SubexpIndex "HostId" = 1 := by decide
  unfold parsedHostIdOf Regexp.FindStringSubmatch
  rw [hidx]
  have ha : detectHostIdRegExp.anchored = true := rfl
  have hn : detectHostIdRegExp.subexpNames.length - 1 = 2 := rfl
  rw [ha, hn]
  simp only [if_true, String.toList]
  cases detectHostIdRegExp.re.matchHere s.data with
  | none => rfl
  | some m =>
    obtain ⟨whole, caps⟩ := m
    simp [submatchAt, List.range_succ]

theorem takeWhile_append_of_all (p : Char → Bool) (run tail : List Char)
    (h : ∀ c ∈ run, p c = true) :
    (run ++ tail).takeWhile p = run ++ tail.takeWhile p := by
  induction run with
  | nil => rfl
  | cons c cs ih =>
    have hc : p c = true := h c (List.mem_cons_self _ _)
    simp [List.takeWhile_cons, hc, ih (fun x hx => h x (List.mem_cons_of_mem _ hx))]

theorem takeWhile_ne_nil_iff (p : Char → Bool) (l : List Char) :
    l.takeWhile p ≠ [] ↔ ∃ c tail, l = c :: tail ∧ p c = true := by
  cases l with
  | nil => simp
  | cons c cs =>
    by_cases hc : p c = true <;> simp [List.takeWhile_cons, hc]

theorem hostIdToken_eq_some_iff (l t : List Char) :
    hostIdToken l = some t ↔
      ∃ marker rest, (marker = ['i', '-'] ∨ marker = ['i', 'p', '-']) ∧ l = marker ++ rest ∧
        rest.takeWhile isWordOrHyphen ≠ [] ∧ t = marker ++ rest.takeWhile isWordOrHyphen := by
  constructor
  · intro h
    rcases l with _ | ⟨c1, _ | ⟨c2, rest⟩⟩
    · simp [hostIdToken] at h
    · simp [hostIdToken] at h
    · simp only [hostIdToken] at h
      by_cases h12 : c1 = 'i' ∧ c2 = '-'
      · rw [if_pos h12] at h
        by_cases ht : rest.takeWhile isWordOrHyphen = []
        · rw [if_pos ht] at h
          cases h
        · rw [if_neg ht] at h
          obtain ⟨e1, e2⟩ := h12
          subst e1 e2
          exact ⟨['i', '-'], rest, Or.inl rfl, rfl, ht, (Option.some.inj h).symm⟩
      · rw [if_neg h12] at h
        by_cases h13 : c1 = 'i' ∧ c2 = 'p'
        · rw [if_pos h13] at h
          rcases rest with _ | ⟨c3, rest3⟩
          · cases h
          · simp only at h
            by_cases h3 : c3 = '-'
            · rw [if_pos h3] at h
              by_cases ht : rest3.takeWhile isWordOrHyphen = []
              · rw [if_pos ht] at h
                cases h
              · rw [if_neg ht] at h
                obtain ⟨e1, e2⟩ := h13
                subst e1 e2 h3
                exact ⟨['i', 'p', '-'], rest3, Or.inr rfl, rfl, ht, (Option.some.inj h).symm⟩
            · rw [if_neg h3] at h
              cases h
        · rw [if_neg h13] at h
          cases h
  · rintro ⟨marker, rest, hm | hm, hl, ht, htok⟩
    · subst hm hl htok
      simp [hostIdToken, ht]
    · subst hm hl htok
      simp [hostIdToken, ht]

theorem parsedHostId_new (s : String) :
    (SetLogStream NewOtlpRequestBuilder s).parsedHostId =
      ((hostIdToken s.data).map String.mk).getD "" := by
  rw [(SetLogStream_frame NewOtlpRequestBuilder s).2.2.2.2, parsedHostIdOf_eq]
  rfl

theorem parsedHostId_new_ne_iff (s : String) :
    (SetLogStream NewOtlpRequestBuilder s).parsedHostId ≠ "" ↔
      ∃ t, hostIdToken s.data = some t := by
  rw [parsedHostId_new]
  cases h : hostIdToken s.data with
  | none => simp
  | some t =>
    obtain ⟨marker, rest, hm, _, _, ht⟩ := (hostIdToken_eq_some_iff _ _).mp h
    have hne : t ≠ [] := by
      rcases hm with hm | hm <;> subst hm <;> subst ht <;> simp
    simp only [Option.map_some', Option.getD_some, ne_eq, Option.some.injEq, exists_eq',
      iff_true]
    intro e
    exact hne (congrArg String.data e)

/-- C17: host-id extraction. For every log-stream string `s` on a new builder, the host
id parsed by `SetLogStream s` is non-empty if and only if `s` starts with "i-" or "ip-"
immediately followed by at least one character of `[0-9A-Za-z_-]`; when non-empty it is
that marker followed by the longest run of such characters, hence a prefix of `s`, and no
prefix of `s` made of a marker and one or more such characters is longer. The extraction
is a total function: it returns for every `s`. -/
theorem C17_host_id_extraction (s : String) :
    ((SetLogStream NewOtlpRequestBuilder s).parsedHostId ≠ "" ↔
      ∃ marker c tail, (marker = ['i', '-'] ∨ marker = ['i', 'p', '-']) ∧
        s.data = marker ++ c :: tail ∧ isWordOrHyphen c = true) ∧
    ((SetLogStream NewOtlpRequestBuilder s).parsedHostId ≠ "" →
      ∃ marker rest, (marker = ['i', '-'] ∨ marker = ['i', 'p', '-']) ∧
        s.data = marker ++ rest ∧ rest.takeWhile isWordOrHyphen ≠ [] ∧
        (SetLogStream NewOtlpRequestBuilder s).parsedHostId.data =
          marker ++ rest.takeWhile isWordOrHyphen) ∧
    (∀ marker run tail, (marker = ['i', '-'] ∨ marker = ['i', 'p', '-']) →
      s.data = marker ++ run ++ tail → run ≠ [] → (∀ c ∈ run, isWordOrHyphen c = true) →
      (marker ++ run).length ≤ (SetLogStream NewOtlpRequestBuilder s).parsedHostId.data.length) := by
  have key : ∀ marker rest, (marker = ['i', '-'] ∨ marker = ['i', 'p', '-']) →
      s.data = marker ++ rest → rest.takeWhile isWordOrHyphen ≠ [] →
      (SetLogStream NewOtlpRequestBuilder s).parsedHostId.data =
        marker ++ rest.takeWhile isWordOrHyphen := by
    intro marker rest hm hs ht
    have h := (hostIdToken_eq_some_iff s.data _).mpr ⟨marker, rest, hm, hs, ht, rfl⟩
    rw [parsedHostId_new, h]
    rfl
  refine ⟨?_, ?_, ?_⟩
  · rw [parsedHostId_new_ne_iff]
    constructor
    · rintro ⟨t, ht⟩
      obtain ⟨marker, rest, hm, hs, hrun, _⟩ := (hostIdToken_eq_some_iff _ _).mp ht
      obtain ⟨c, tail, hrest, hc⟩ := (takeWhile_ne_nil_iff _ _).mp hrun
      exact ⟨marker, c, tail, hm, by rw [hs, hrest], hc⟩
    · rintro ⟨marker, c, tail, hm, hs, hc⟩
      exact ⟨_, (hostIdToken_eq_some_iff _ _).mpr
        ⟨marker, c :: tail, hm, hs, (takeWhile_ne_nil_iff _ _).mpr ⟨c, tail, rfl, hc⟩, rfl⟩⟩
  · intro hne
    obtain ⟨t, ht⟩ := (parsedHostId_new_ne_iff s).mp hne
    obtain ⟨marker, rest, hm, hs, hrun, _⟩ := (hostIdToken_eq_some_iff _ _).mp ht
    exact ⟨marker, rest, hm, hs, hrun, key marker rest hm hs hrun⟩
  · intro marker run tail hm hs hne hall
    have htw : (run ++ tail).takeWhile isWordOrHyphen = run ++ tail.takeWhile isWordOrHyphen :=
      takeWhile_append_of_all _ run tail hall
    have hrun : (run ++ tail).takeWhile isWordOrHyphen ≠ [] := by
      rw [htw]
      simp [hne]
    rw [key marker (run ++ tail) hm (by rw [hs, List.append_assoc]) hrun, htw]
    simp

/-- Witness for C17: the stream "i-abc123/var/log" yields a non-empty parsed host id made
of a marker and the longest run of word and hyphen characters after it. -/
theorem C17_host_id_extraction_witness :
    ∃ marker rest, (marker = ['i', '-'] ∨ marker = ['i', 'p', '-']) ∧
      "i-abc123/var/log".data = marker ++ rest ∧ rest.takeWhile isWordOrHyphen ≠ [] ∧
      (SetLogStream NewOtlpRequestBuilder "i-abc123/var/log").parsedHostId.data =
        marker ++ rest.takeWhile isWordOrHyphen :=
  (C17_host_id_extraction "i-abc123/var/log").2.1 (by decide)


/-! ## Region extraction -/

theorem plusK_of_fail {R : Type} (p : Char → Bool) (s : List Char) (k : List Char → Option R)
    (hk : ∀ c cs, p c = true → k (c :: cs) = none) :
    plusK p s k = if s.takeWhile p = [] then none else k (s.dropWhile p) := by
  induction s with
  | nil => simp [plusK]
  | cons c cs ih =>
    by_cases hc : p c = true
    · simp only [plusK, hc, if_true, ih, List.takeWhile_cons, List.dropWhile_cons]
      by_cases ht : cs.takeWhile p = []
      · have hd : cs.dropWhile p = cs := by
          have := List.takeWhile_append_dropWhile p cs
          rw [ht] at this
          simpa using this
        simp [ht, hd]
      · obtain ⟨c1, tail, hcs, hc1⟩ := (takeWhile_ne_nil_iff p cs).mp ht
        simp only [ht, if_false, reduceCtorEq]
        cases hr : k (cs.dropWhile p) with
        | some r => rfl
        | none =>
          simp only []
          rw [hcs]
          exact hk c1 tail hc1
    · simp [plusK, hc, List.takeWhile_cons]

theorem region_matchK {R : Type} (s : List Char) (caps : Captures)
    (K : List Char → Captures → Option R) :
    (Regex.seq (.seq (.cls isWord) (.cls isWord)) (.seq (.chr '-')
        (.seq (.plus isWord) (.seq (.chr '-') (.plus isDigit))))).matchK s caps K =
      match s with
      | a :: b :: c :: rest =>
        if isWord a = true ∧ isWord b = true ∧ c = '-' ∧ rest.takeWhile isWord ≠ [] then
          match rest.dropWhile isWord with
          | h :: rest2 => if h = '-' then plusK isDigit rest2 (fun s3 => K s3 caps) else none
          | [] => none
        else none
      | _ => none := by
  simp only [Regex.matchK, Regex.chr, cls_matchK]
  rcases s with _ | ⟨a, _ | ⟨b, _ | ⟨c, rest⟩⟩⟩
  · rfl
  · by_cases ha : isWord a = true <;> simp [ha]
  · by_cases ha : isWord a = true <;> by_cases hb : isWord b = true <;> simp [ha, hb]
  · simp only []
    by_cases ha : isWord a = true
    · by_cases hb : isWord b = true
      · by_cases hc : c = '-'
        · subst hc
          rw [plusK_of_fail]
          · by_cases ht : rest.takeWhile isWord = []
            · simp [ha, hb, ht]
            · simp only [ha, hb, ht, if_true, if_false, and_self, beq_self_eq_true,
                not_false_eq_true, ne_eq]
              cases rest.dropWhile isWord with
              | nil => rfl
              | cons h rest2 => simp
          · intro c1 cs hc1
            have : ¬ (c1 = '-') := by
              intro e
              subst e
              exact absurd hc1 (by decide)
            simp [this]
        · simp [ha, hb, hc]
      · simp [ha, hb]
    · simp [ha]

theorem region_capture (s : List Char) :
    (detectRegionRegExp.re.matchHere s).map (fun m => captureText m.2 1) =
      (regionTokenAt s).map String.mk := by
  unfold Regex.matchHere detectRegionRegExp
  simp only [Regex.matchK.eq_6, region_matchK, plusK_some]
  rcases s with _ | ⟨a, _ | ⟨b, _ | ⟨c, rest⟩⟩⟩
  · rfl
  · rfl
  · rfl
  · simp only [regionTokenAt]
    by_cases hcond : isWord a = true ∧ isWord b = true ∧ c = '-' ∧ rest.takeWhile isWord ≠ []
    · rw [if_pos hcond, if_pos hcond]
      cases hd : rest.dropWhile isWord with
      | nil => rfl
      | cons h rest2 =>
        simp only []
        by_cases hh : h = '-'
        · by_cases ht : rest2.takeWhile isDigit = []
          · simp [hh, ht]
          · have hs : a :: b :: c :: rest =
                (a :: b :: c :: (rest.takeWhile isWord ++ [h])) ++ rest2 := by
              have := List.takeWhile_append_dropWhile isWord rest
              rw [hd] at this
              simp [this]
            have htake := take_sub_dropWhile isDigit
              (a :: b :: c :: (rest.takeWhile isWord ++ [h])) rest2
            rw [← hs] at htake
            simp only [hh, ht, if_true, if_false, and_self, not_false_eq_true, ne_eq,
              Option.map_some', captureText_setCapture]
            rw [← hh, htake]
            simp
        · simp [hh]
    · rw [if_neg hcond, if_neg hcond]
      rfl

theorem region_search (s : List Char) :
    (detectRegionRegExp.re.search s).map (fun m => captureText m.2 1) =
      (firstRegionToken s).map String.mk := by
  induction s with
  | nil => exact region_capture []
  | cons c cs ih =>
    have hc := region_capture (c :: cs)
    simp only [Regex.search, firstRegionToken]
    cases hm : detectRegionRegExp.re.matchHere (c :: cs) with
    | none =>
      rw [hm] at hc
      cases ht : regionTokenAt (c :: cs) with
      | none => exact ih
      | some t =>
        rw [ht] at hc
        cases hc
    | some m =>
      rw [hm] at hc
      cases ht : regionTokenAt (c :: cs) with
      | none =>
        rw [ht] at hc
        cases hc
      | some t =>
        rw [ht] at hc
        exact hc

theorem parsedRegionOf_eq (s : String) :
    parsedRegionOf s = (firstRegionToken s.data).map String.mk := by
  rw [← region_search]
  have hidx : detectRegionRegExp.SubexpIndex "Region" = 1 := by decide
  unfold parsedRegionOf Regexp.FindStringSubmatch
  rw [hidx]
  have ha : detectRegionRegExp.anchored = false := rfl
  have hn : detectRegionRegExp.subexpNames.length - 1 = 1 := rfl
  rw [ha, hn]
  simp only [Bool.false_eq_true, if_false, String.toList]
  cases detectRegionRegExp.re.search s.data with
  | none => rfl
  | some m =>
    obtain ⟨whole, caps⟩ := m
    simp [submatchAt]

theorem dropWhile_append_of_all (p : Char → Bool) (run tail : List Char)
    (h : ∀ c ∈ run, p c = true) :
    (run ++ tail).dropWhile p = tail.dropWhile p := by
  induction run with
  | nil => rfl
  | cons c cs ih =>
    have hc : p c = true := h c (List.mem_cons_self _ _)
    simp [List.dropWhile_cons, hc, ih (fun x hx => h x (List.mem_cons_of_mem _ hx))]

theorem regionTokenAt_sound (s t : List Char) (h : regionTokenAt s = some t) :
    ∃ tail, s = t ++ tail ∧ RegionShape t := by
  rcases s with _ | ⟨a, _ | ⟨b, _ | ⟨c, rest⟩⟩⟩
  · cases h
  · cases h
  · cases h
  · simp only [regionTokenAt] at h
    by_cases hcond : isWord a = true ∧ isWord b = true ∧ c = '-' ∧ rest.takeWhile isWord ≠ []
    · rw [if_pos hcond] at h
      obtain ⟨ha, hb, hc, hw⟩ := hcond
      cases hd : rest.dropWhile isWord with
      | nil =>
        rw [hd] at h
        cases h
      | cons x rest2 =>
        rw [hd] at h
        simp only [] at h
        by_cases hx : x = '-' ∧ rest2.takeWhile isDigit ≠ []
        · rw [if_pos hx] at h
          obtain ⟨hx1, hx2⟩ := hx
          have ht := (Option.some.inj h).symm
          subst hc hx1
          refine ⟨rest2.dropWhile isDigit, ?_, a, b, rest.takeWhile isWord,
            rest2.takeWhile isDigit, ht, ha, hb, hw, fun c hc => List.mem_takeWhile_imp hc,
            hx2, fun c hc => List.mem_takeWhile_imp hc⟩
          have h1 := List.takeWhile_append_dropWhile isWord rest
          have h2 := List.takeWhile_append_dropWhile isDigit rest2
          rw [hd] at h1
          rw [ht]
          simp only [List.cons_append, List.append_assoc, h2]
          rw [h1]
        · rw [if_neg hx] at h
          cases h
    · rw [if_neg hcond] at h
      cases h

theorem regionTokenAt_complete (t tail : List Char) (h : RegionShape t) :
    ∃ t1, regionTokenAt (t ++ tail) = some t1 := by
  obtain ⟨a, b, w, d, ht, ha, hb, hw, hwall, hd, hdall⟩ := h
  subst ht
  have hrest : (a :: b :: '-' :: (w ++ '-' :: d)) ++ tail =
      a :: b :: '-' :: (w ++ '-' :: (d ++ tail)) := by simp
  have hnw : isWord '-' = false := by decide
  have htw : (w ++ '-' :: (d ++ tail)).takeWhile isWord = w := by
    rw [takeWhile_append_of_all isWord w _ hwall]
    simp [List.takeWhile_cons, hnw]
  have hdw : (w ++ '-' :: (d ++ tail)).dropWhile isWord = '-' :: (d ++ tail) := by
    rw [dropWhile_append_of_all isWord w _ hwall]
    simp [List.dropWhile_cons, hnw]
  have htd : (d ++ tail).takeWhile isDigit ≠ [] := by
    rw [takeWhile_append_of_all isDigit d _ hdall]
    simp [hd]
  refine ⟨a :: b :: '-' :: (w ++ '-' :: (d ++ tail).takeWhile isDigit), ?_⟩
  rw [hrest]
  simp [regionTokenAt, htw, hdw, ha, hb, hw, htd]

theorem firstRegionToken_leftmost (s t : List Char) (h : firstRegionToken s = some t) :
    ∃ pre post, s = pre ++ t ++ post ∧ RegionShape t ∧
      ∀ pre1 tok post1, s = pre1 ++ tok ++ post1 → RegionShape tok →
        pre.length ≤ pre1.length := by
  induction s with
  | nil => cases h
  | cons c cs ih =>
    simp only [firstRegionToken] at h
    cases hat : regionTokenAt (c :: cs) with
    | some t1 =>
      rw [hat] at h
      have e : t1 = t := Option.some.inj h
      subst e
      obtain ⟨tail, hs, hshape⟩ := regionTokenAt_sound _ _ hat
      exact ⟨[], tail, by simpa using hs, hshape, fun _ _ _ _ _ => Nat.zero_le _⟩
    | none =>
      rw [hat] at h
      obtain ⟨pre, post, hs, hshape, hleft⟩ := ih h
      refine ⟨c :: pre, post, by simp [hs], hshape, ?_⟩
      intro pre1 tok post1 hs1 hshape1
      cases pre1 with
      | nil =>
        obtain ⟨t1, ht1⟩ := regionTokenAt_complete tok post1 hshape1
        rw [List.nil_append] at hs1
        rw [← hs1, hat] at ht1
        cases ht1
      | cons x pre2 =>
        have hcs : cs = pre2 ++ tok ++ post1 := by
          simp only [List.cons_append] at hs1
          exact (List.cons.inj hs1).2
        have := hleft pre2 tok post1 hcs hshape1
        simp only [List.length_cons]
        omega

theorem firstRegionToken_of_head (l t : List Char) (h : regionTokenAt l = some t) :
    firstRegionToken l = some t := by
  cases l with
  | nil => cases h
  | cons c cs =>
    simp only [firstRegionToken]
    rw [h]

theorem firstRegionToken_complete (pre tok post : List Char) (h : RegionShape tok) :
    ∃ t, firstRegionToken (pre ++ tok ++ post) = some t := by
  induction pre with
  | nil =>
    obtain ⟨t1, ht1⟩ := regionTokenAt_complete tok post h
    exact ⟨t1, firstRegionToken_of_head _ _ ht1⟩
  | cons c cs ih =>
    obtain ⟨t, ht⟩ := ih
    simp only [List.cons_append, firstRegionToken]
    cases regionTokenAt (c :: (cs ++ tok ++ post)) with
    | some t1 => exact ⟨_, rfl⟩
    | none => exact ⟨t, by simpa using ht⟩

theorem RegionShape_ne_nil (t : List Char) (h : RegionShape t) : t ≠ [] := by
  obtain ⟨a, b, w, d, ht, _⟩ := h
  subst ht
  simp

theorem parsedRegion_new (s : String) :
    (SetLogStream NewOtlpRequestBuilder s).parsedRegion =
      ((firstRegionToken s.data).map String.mk).getD "" := by
  rw [(SetLogStream_frame NewOtlpRequestBuilder s).2.2.2.1, parsedRegionOf_eq]
  rfl

/-- C18, as stated, fails: for the stream "12-ab-3" the parsed region is "12-ab-3", which
does not begin with two letters; the pattern asks for two word characters, and digits are
word characters. -/
theorem C18_two_letters_counterexample :
    (SetLogStream NewOtlpRequestBuilder "12-ab-3").parsedRegion = "12-ab-3" ∧
    ¬ TokenShape isLetter (SetLogStream NewOtlpRequestBuilder "12-ab-3").parsedRegion.data := by
  have hp : (SetLogStream NewOtlpRequestBuilder "12-ab-3").parsedRegion = "12-ab-3" := by decide
  refine ⟨hp, ?_⟩
  rw [hp]
  rintro ⟨a, b, w, d, ht, ha, _⟩
  have h1 : a = '1' := by
    have := congrArg List.head? ht
    simpa using this.symm
  subst h1
  exact absurd ha (by decide)

/-- C18, amended: region extraction. For every log-stream string `s` on a new builder, the
region parsed by `SetLogStream s`, when non-empty, is a contiguous substring of `s` of the
shape: exactly two word characters (`[0-9A-Za-z_]`, not only letters), a hyphen, one or
more word characters, a hyphen, one or more digits; and it is the leftmost occurrence of
such a token in `s`: no token of this shape starts further left. The parsed region is
non-empty exactly when `s` contains a token of this shape. -/
theorem C18_region_extraction (s : String) :
    ((SetLogStream NewOtlpRequestBuilder s).parsedRegion ≠ "" →
      ∃ pre post,
        s.data = pre ++ (SetLogStream NewOtlpRequestBuilder s).parsedRegion.data ++ post ∧
        RegionShape (SetLogStream NewOtlpRequestBuilder s).parsedRegion.data ∧
        ∀ pre1 tok post1, s.data = pre1 ++ tok ++ post1 → RegionShape tok →
          pre.length ≤ pre1.length) ∧
    ((SetLogStream NewOtlpRequestBuilder s).parsedRegion ≠ "" ↔
      ∃ pre tok post, s.data = pre ++ tok ++ post ∧ RegionShape tok) := by
  rw [parsedRegion_new]
  cases h : firstRegionToken s.data with
  | none =>
    refine ⟨fun hne => absurd rfl hne, ?_⟩
    constructor
    · intro hne
      exact absurd rfl hne
    · rintro ⟨pre, tok, post, hs, hshape⟩
      obtain ⟨t, ht⟩ := firstRegionToken_complete pre tok post hshape
      rw [← hs, h] at ht
      cases ht
  | some t =>
    obtain ⟨pre, post, hs, hshape, hleft⟩ := firstRegionToken_leftmost _ _ h
    have hne : (String.mk t) ≠ "" := fun e =>
      RegionShape_ne_nil t hshape (congrArg String.data e)
    exact ⟨fun _ => ⟨pre, post, hs, hshape, hleft⟩,
      ⟨fun _ => ⟨pre, t, post, hs, hshape⟩, fun _ => hne⟩⟩

/-- Witness for C18 (amended): the stream "foo-us-east-1-bar". -/
theorem C18_region_extraction_witness :
    ∃ pre post,
      "foo-us-east-1-bar".data =
        pre ++ (SetLogStream NewOtlpRequestBuilder "foo-us-east-1-bar").parsedRegion.data ++
          post ∧
      RegionShape (SetLogStream NewOtlpRequestBuilder "foo-us-east-1-bar").parsedRegion.data ∧
      ∀ pre1 tok post1, "foo-us-east-1-bar".data = pre1 ++ tok ++ post1 → RegionShape tok →
        pre.length ≤ pre1.length :=
  (C18_region_extraction "foo-us-east-1-bar").1 (by decide)

end SendLogs
